import Mathlib

/-!
Verification of the myAMS attendance core.

This file gives a shallow embedding, in Lean 4, of the attendance-record
subsystem of the myAMS backend:

* `generateSessionBreakdown` (teacherController.js, lines 961-985),
* `markAttendance` (teacherController.js, lines 87-416),
* `editAttendanceRecord` (teacherController.js, lines 635-786),
* the `AttendanceRecord` instance methods `calculateStudentTotals`,
  `updateWithAudit`, `updateStudentAllSessions` and `updateAttendance`
  (AttendanceRecord.model.js),
* the per-subject aggregation of `getAttendanceBySubject`
  (studentController.js, lines 237-324).

Mongo object ids, user ids, dates and timestamps are embedded as natural
numbers; HH:MM times are embedded as strings, exactly as the code stores
them.  The JavaScript numbers appearing in attendance arithmetic are
embedded as naturals (counts) and rationals (percentages); the percentage
computation `parseFloat(x.toFixed(2))` is embedded as exact rational
rounding to two decimals, which agrees with the IEEE-double computation on
the whole validated domain (numSessions between 1 and 10).

The persistent store is a record of lists; each controller operation is a
function from the store (plus the request and the injected clock values)
to a result together with the new store, translated branch by branch from
the source so that every `sendError` return corresponds to an error result
that leaves the store untouched, and the single `create` / `save` call of
each handler corresponds to the single place the store changes.
-/

namespace MyAMS

/-! ## Constants (config/constants.js) -/

/-- Session duration in minutes (`SESSION_DURATION = 45`). -/
def SESSION_DURATION : ℕ := 45

/-- Maximum number of sessions per class (`MAX_SESSIONS_PER_CLASS = 10`). -/
def MAX_SESSIONS_PER_CLASS : ℕ := 10

/-- The valid attendance statuses, `Object.values(ATTENDANCE_STATUS)`. -/
def isValidStatus (s : String) : Bool := s == "present" || s == "absent"

/-! ## HH:MM times

The controllers validate times with the regex
`/^([0-1][0-9]|2[0-3]):([0-5][0-9])$/`, parse them with
`split(':').map(Number)` and re-render them with
`String(h).padStart(2,'0') + ':' + String(m).padStart(2,'0')` where `h`,
`m` come from a JavaScript `Date`, hence are reduced modulo 24 hours. -/

/-- Numeric value of a digit character. -/
def digitVal (c : Char) : ℕ := c.toNat - 48

/-- Digit character of a value below ten. -/
def digitChar (n : ℕ) : Char := Char.ofNat (48 + n)

/-- Character range test used to spell out the time regex. -/
def charIn (c lo hi : Char) : Bool := decide (lo.toNat ≤ c.toNat ∧ c.toNat ≤ hi.toNat)

/-- Embeds the test of the regex `/^([0-1][0-9]|2[0-3]):([0-5][0-9])$/`
used by `markAttendance` and `editAttendanceRecord` for `startTime` and
`endTime`. -/
def timeRegexOK (s : String) : Bool :=
  match s.data with
  | [h1, h2, c, m1, m2] =>
      (charIn h1 '0' '1' && charIn h2 '0' '9' || h1 == '2' && charIn h2 '0' '3')
        && c == ':' && charIn m1 '0' '5' && charIn m2 '0' '9'
  | _ => false

/-- Minutes-of-day of an HH:MM string: embeds
`const [h, m] = t.split(':').map(Number); h * 60 + m`.  It agrees with the
JavaScript computation on every string accepted by `timeRegexOK`, the only
strings it is applied to. -/
def toMin (s : String) : ℕ :=
  match s.data with
  | [h1, h2, _, m1, m2] =>
      (digitVal h1 * 10 + digitVal h2) * 60 + (digitVal m1 * 10 + digitVal m2)
  | _ => 0

/-- HH:MM rendering of a minute count: embeds reading `getHours` and
`getMinutes` from a `Date` (which reduces modulo one day) and padding both
components to two digits. -/
def fmtMin (t : ℕ) : String :=
  String.mk [digitChar (t % 1440 / 60 / 10), digitChar (t % 1440 / 60 % 10), ':',
             digitChar (t % 1440 % 60 / 10), digitChar (t % 1440 % 60 % 10)]

/-! ## Rounding

`parseFloat(x.toFixed(2))` for the nonnegative values produced by the
attendance percentage formulas: round to the nearest multiple of 1/100,
ties away from zero.  On the validated domain (a quotient of two naturals
with denominator between 1 and 10, times 100) the IEEE-double pipeline of
the source coincides with this exact rational rounding. -/

/-- Rounding a nonnegative rational to two decimal places. -/
def roundTo2 (q : ℚ) : ℚ := (⌊q * 100 + 1 / 2⌋ : ℚ) / 100

/-! ## Session breakdown (generateSessionBreakdown, teacherController.js 961-985) -/

/-- One element of `sessionBreakdown`. -/
structure SessionSlot where
  sessionNumber : ℕ
  startTime : String
  endTime : String
  deriving DecidableEq

/-- The loop of `generateSessionBreakdown`: `cur` is the running absolute
minute count of the `Date` object, `i` the next session number, `k` the
number of sessions still to emit.  Each iteration renders the current time,
advances by `SESSION_DURATION` minutes and renders the session end. -/
def genSessions : ℕ → ℕ → ℕ → List SessionSlot
  | _, _, 0 => []
  | cur, i, Nat.succ k =>
      { sessionNumber := i, startTime := fmtMin cur,
        endTime := fmtMin (cur + SESSION_DURATION) }
        :: genSessions (cur + SESSION_DURATION) (i + 1) k

/-- Embeds `generateSessionBreakdown(startTime, endTime, numSessions)`.
The source parses `startTime`, then emits `numSessions` consecutive slots
of `SESSION_DURATION` minutes; the `endTime` argument is never used. -/
def generateSessionBreakdown (startTime : String) (_endTime : String)
    (numSessions : ℕ) : List SessionSlot :=
  genSessions (toMin startTime) 1 numSessions

/-! ## Data model -/

/-- One element of a per-student `sessions` array: the raw
`{ sessionNumber, status }` shape, with the status kept as the string the
request carried (validation of the status against `ATTENDANCE_STATUS` is
part of the operations, as in the source). -/
structure SessionEntry where
  sessionNumber : ℕ
  status : String
  deriving DecidableEq

/-- One element of `AttendanceRecord.attendance`. -/
structure StudentAttendance where
  studentId : ℕ
  sessions : List SessionEntry
  totalPresent : ℕ
  totalAbsent : ℕ
  attendancePercentage : ℚ
  deriving DecidableEq

/-- The `AttendanceRecord` document (AttendanceRecord.model.js).  The
human-readable `recordId` string is embedded as an opaque natural number;
`date`, `markedAt` and `lastModifiedAt` are opaque instants. -/
structure AttendanceRecord where
  recordId : ℕ
  subjectId : ℕ
  classSectionId : ℕ
  teacherId : ℕ
  date : ℕ
  startTime : String
  endTime : String
  semester : ℕ
  numSessions : ℕ
  sessionBreakdown : List SessionSlot
  attendance : List StudentAttendance
  markedBy : ℕ
  markedAt : ℕ
  lastModifiedBy : Option ℕ
  lastModifiedAt : Option ℕ
  isFinalized : Bool
  deriving DecidableEq

/-- One element of `ClassSection.students` (the roster): a student
reference tagged with a status among active, withdrawn, transferred
(entries are soft-deleted, never removed). -/
structure RosterEntry where
  studentId : ℕ
  rosterStatus : String
  deriving DecidableEq

/-- The `ClassSection` document (fields the attendance core reads). -/
structure ClassSection where
  id : ℕ
  subjectId : ℕ
  teacherId : ℕ
  semester : ℕ
  students : List RosterEntry
  isActive : Bool
  deriving DecidableEq

/-- The `Student` document, reduced to the fields the attendance core
reads: its id and the subject ids of `enrolledSubjects`. -/
structure Student where
  id : ℕ
  enrolledSubjects : List ℕ
  deriving DecidableEq

/-- The `Teacher` document, reduced to its id and the linked user id. -/
structure Teacher where
  id : ℕ
  userId : ℕ
  deriving DecidableEq

/-- The persistent store visible to the attendance core. -/
structure DB where
  teachers : List Teacher
  students : List Student
  sections : List ClassSection
  records : List AttendanceRecord
  deriving DecidableEq

/-! ## List helpers

`Model.findOne` / `Array.prototype.find` return the first match;
mutating the found document and calling `save` replaces that first match
in the store. -/

/-- First element satisfying a decidable predicate (`Array.prototype.find`,
`Model.findOne`). -/
def findFirst (p : α → Prop) [DecidablePred p] : List α → Option α
  | [] => none
  | x :: xs => if p x then some x else findFirst p xs

/-- Replace the first element satisfying `p` by its image under `f`
(mutation of the document returned by a first-match lookup). -/
def updateFirst (p : α → Prop) [DecidablePred p] (f : α → α) : List α → List α
  | [] => []
  | x :: xs => if p x then f x :: xs else x :: updateFirst p f xs

/-! ## Errors

Each constructor names one `sendError` site of the embedded handlers.
`isValidationError` marks the ones sent with status 400 (BAD_REQUEST),
the `ValidationError` family of the specification. -/

/-- Error outcomes of the embedded handlers. -/
inductive ApiError
  | missingFields
  | badNumSessions
  | badStartTimeFormat
  | badEndTimeFormat
  | endNotAfterStart
  | durationTooShort
  | emptyAttendance
  | teacherNotFound
  | sectionNotFound
  | sectionInactive
  | notAssigned
  | badDate
  | futureDate
  | studentNotFound
  | notEnrolled
  | notInSection
  | wrongSessionCount
  | badSessionNumber
  | badStatus
  | duplicateSessions
  | missingSessions
  | recordNotFound
  | notOwner
  | alreadyFinalized
  | updateFailed
  deriving DecidableEq

/-- Errors sent with HTTP status 400, the `ValidationError` family. -/
def ApiError.isValidationError : ApiError → Bool
  | .missingFields | .badNumSessions | .badStartTimeFormat | .badEndTimeFormat
  | .endNotAfterStart | .durationTooShort | .emptyAttendance | .sectionInactive
  | .badDate | .futureDate | .studentNotFound | .notEnrolled | .notInSection
  | .wrongSessionCount | .badSessionNumber | .badStatus | .duplicateSessions
  | .missingSessions | .alreadyFinalized | .updateFailed => true
  | .teacherNotFound | .sectionNotFound | .notAssigned | .recordNotFound
  | .notOwner => false

/-! ## Creation path (markAttendance, teacherController.js 87-416) -/

/-- The per-session loop of `markAttendance` (lines 296-323): for each
session in order, reject a session number outside 1..numSessions, then an
invalid status, and count present and absent marks. -/
def checkSessionList (n : ℕ) : List SessionEntry → Except ApiError (ℕ × ℕ)
  | [] => .ok (0, 0)
  | s :: rest =>
      if s.sessionNumber < 1 ∨ n < s.sessionNumber then .error .badSessionNumber
      else if ¬ (isValidStatus s.status = true) then .error .badStatus
      else
        match checkSessionList n rest with
        | .error e => .error e
        | .ok pa =>
            .ok (if s.status = "present" then (pa.1 + 1, pa.2) else (pa.1, pa.2 + 1))

/-- The session-array validation of `markAttendance` (lines 284-349):
exact length, per-session checks, duplicate session numbers
(`new Set` size comparison), missing session numbers (filter of the
expected 1..numSessions list).  Returns the present and absent counts. -/
def validateStudentSessions (n : ℕ) (sessions : List SessionEntry) :
    Except ApiError (ℕ × ℕ) :=
  if sessions.length ≠ n then .error .wrongSessionCount
  else
    match checkSessionList n sessions with
    | .error e => .error e
    | .ok pa =>
        let nums := sessions.map (·.sessionNumber)
        if nums.dedup.length ≠ nums.length then .error .duplicateSessions
        else if ((List.range' 1 n).filter fun k => decide (k ∉ nums)) ≠ [] then
          .error .missingSessions
        else .ok pa

/-- The validated entry pushed onto `validatedAttendance` (lines 351-361):
totals and the percentage `parseFloat(((present / numSessions) * 100).toFixed(2))`. -/
def mkStudentAttendance (sid n p a : ℕ) (sessions : List SessionEntry) :
    StudentAttendance :=
  { studentId := sid, sessions := sessions, totalPresent := p, totalAbsent := a,
    attendancePercentage := roundTo2 ((p : ℚ) / (n : ℚ) * 100) }

/-- The body of the per-student loop of `markAttendance` (lines 244-362):
student lookup, enrollment check against the section subject, roster
membership check (`classSection.students.some(sid => sid.studentId === studentId)`,
which does not look at the roster status), then the session checks. -/
def validateStudentEntry (db : DB) (cs : ClassSection) (n : ℕ)
    (sid : ℕ) (sessions : List SessionEntry) : Except ApiError StudentAttendance :=
  match findFirst (fun s : Student => s.id = sid) db.students with
  | none => .error .studentNotFound
  | some student =>
      if ¬ cs.subjectId ∈ student.enrolledSubjects then .error .notEnrolled
      else if ¬ ∃ e ∈ cs.students, e.studentId = sid then .error .notInSection
      else
        match validateStudentSessions n sessions with
        | .error e => .error e
        | .ok pa => .ok (mkStudentAttendance sid n pa.1 pa.2 sessions)

/-- The per-student loop of `markAttendance`: first failure aborts. -/
def validateAttendanceList (db : DB) (cs : ClassSection) (n : ℕ) :
    List (ℕ × List SessionEntry) → Except ApiError (List StudentAttendance)
  | [] => .ok []
  | (sid, ss) :: rest =>
      match validateStudentEntry db cs n sid ss with
      | .error e => .error e
      | .ok v =>
          match validateAttendanceList db cs n rest with
          | .error e => .error e
          | .ok vs => .ok (v :: vs)

/-- The request body of `POST /api/teachers/attendance`.  `date` is the
already-parsed calendar day, `none` standing for a string `parseDate`
rejects. -/
structure MarkRequest where
  classSectionId : ℕ
  date : Option ℕ
  startTime : String
  endTime : String
  numSessions : ℕ
  attendance : List (ℕ × List SessionEntry)
  deriving DecidableEq

/-- The validation and construction part of `markAttendance`
(teacherController.js 87-365): everything the handler does before the
single `AttendanceRecord.create` call.  `userId` is `req.user.userId`;
`today` and `now` are the injected clock reads; `rid` stands for the
generated record id (a fresh identifier derived from the date and
`Date.now()` in the source).  Each `sendError` return maps to an error;
the fully validated record is the success value. -/
def markAttendanceResult (db : DB) (userId : ℕ) (req : MarkRequest)
    (today now rid : ℕ) : Except ApiError AttendanceRecord :=
  if req.startTime = "" ∨ req.endTime = "" ∨ req.numSessions = 0 then
    .error .missingFields
  else if req.numSessions < 1 ∨ MAX_SESSIONS_PER_CLASS < req.numSessions then
    .error .badNumSessions
  else if ¬ timeRegexOK req.startTime = true then .error .badStartTimeFormat
  else if ¬ timeRegexOK req.endTime = true then .error .badEndTimeFormat
  else if toMin req.endTime ≤ toMin req.startTime then .error .endNotAfterStart
  else if toMin req.endTime - toMin req.startTime < req.numSessions * SESSION_DURATION then
    .error .durationTooShort
  else if req.attendance = [] then .error .emptyAttendance
  else
    match findFirst (fun t : Teacher => t.userId = userId) db.teachers with
    | none => .error .teacherNotFound
    | some teacher =>
        match findFirst (fun c : ClassSection => c.id = req.classSectionId) db.sections with
        | none => .error .sectionNotFound
        | some cs =>
            if ¬ cs.isActive = true then .error .sectionInactive
            else if ¬ cs.teacherId = teacher.id then .error .notAssigned
            else
              match req.date with
              | none => .error .badDate
              | some d =>
                  if today < d then .error .futureDate
                  else
                    match validateAttendanceList db cs req.numSessions req.attendance with
                    | .error e => .error e
                    | .ok validated =>
                        .ok { recordId := rid, subjectId := cs.subjectId,
                              classSectionId := cs.id, teacherId := teacher.id,
                              date := d, startTime := req.startTime,
                              endTime := req.endTime, semester := cs.semester,
                              numSessions := req.numSessions,
                              sessionBreakdown :=
                                generateSessionBreakdown req.startTime req.endTime
                                  req.numSessions,
                              attendance := validated, markedBy := teacher.id,
                              markedAt := now, lastModifiedBy := none,
                              lastModifiedAt := none, isFinalized := false }

/-- Embeds `markAttendance` (teacherController.js 87-416) as an operation
on the store.  Every `sendError` return of the handler happens before the
single `AttendanceRecord.create` call (line 368), so an error leaves the
store as it was; success appends exactly the one validated record. -/
def markAttendance (db : DB) (userId : ℕ) (req : MarkRequest)
    (today now rid : ℕ) : Except ApiError AttendanceRecord × DB :=
  match markAttendanceResult db userId req today now rid with
  | .error e => (.error e, db)
  | .ok record => (.ok record, { db with records := db.records ++ [record] })

/-! ## AttendanceRecord instance methods (AttendanceRecord.model.js) -/

/-- Embeds `calculateStudentTotals(studentId)` (AttendanceRecord.model.js
415-447): find the first attendance entry of the student (no-op when
absent), count present and absent sessions, fail when the counts do not
add up to `numSessions`, otherwise store the recomputed totals and the
percentage.  Errors are the thrown `Error`s of the source; they are
caught by the controller, which answers with a 400. -/
def calculateStudentTotals (rec : AttendanceRecord) (sid : ℕ) :
    Except ApiError AttendanceRecord :=
  match findFirst (fun a : StudentAttendance => a.studentId = sid) rec.attendance with
  | none => .ok rec
  | some e =>
      let p := e.sessions.countP (fun s => s.status == "present")
      let a := e.sessions.countP (fun s => s.status == "absent")
      if p + a ≠ rec.numSessions then .error .updateFailed
      else .ok { rec with
        attendance :=
          updateFirst (fun x : StudentAttendance => x.studentId = sid)
            (fun x => { x with totalPresent := p, totalAbsent := a,
                               attendancePercentage :=
                                 roundTo2 ((p : ℚ) / (rec.numSessions : ℚ) * 100) })
            rec.attendance }

/-- Embeds `updateWithAudit(userId)` (AttendanceRecord.model.js 483-486):
set `lastModifiedBy` and `lastModifiedAt`. -/
def updateWithAudit (rec : AttendanceRecord) (userId now : ℕ) : AttendanceRecord :=
  { rec with lastModifiedBy := some userId, lastModifiedAt := some now }

/-- The `sessionsData.forEach` loop of `updateStudentAllSessions`
(AttendanceRecord.model.js 574-601): for each update reject a missing
session number or status (JavaScript falsiness: 0 and the empty string),
then an invalid status; a matching stored session gets the new status, a
session number with no match is only warned about and skipped. -/
def applySessionUpdates (stored : List SessionEntry) :
    List SessionEntry → Except ApiError (List SessionEntry)
  | [] => .ok stored
  | u :: rest =>
      if u.sessionNumber = 0 ∨ u.status = "" then .error .updateFailed
      else if ¬ isValidStatus u.status = true then .error .updateFailed
      else
        applySessionUpdates
          (updateFirst (fun s : SessionEntry => s.sessionNumber = u.sessionNumber)
            (fun s => { s with status := u.status }) stored)
          rest

/-- Embeds `updateStudentAllSessions(studentId, sessionsData, modifiedBy)`
(AttendanceRecord.model.js 550-608): find the student entry (throw when
absent), reject an empty update list, apply the updates to the stored
sessions, recompute the totals through `calculateStudentTotals` and stamp
the audit fields.  A thrown error surfaces before `save`, so the store is
unchanged on failure. -/
def updateStudentAllSessions (rec : AttendanceRecord) (sid : ℕ)
    (sessionsData : List SessionEntry) (modifiedBy now : ℕ) :
    Except ApiError AttendanceRecord :=
  match findFirst (fun a : StudentAttendance => a.studentId = sid) rec.attendance with
  | none => .error .updateFailed
  | some e =>
      if sessionsData = [] then .error .updateFailed
      else
        match applySessionUpdates e.sessions sessionsData with
        | .error err => .error err
        | .ok newSessions =>
            let rec1 := { rec with
              attendance :=
                updateFirst (fun x : StudentAttendance => x.studentId = sid)
                  (fun x => { x with sessions := newSessions }) rec.attendance }
            match calculateStudentTotals rec1 sid with
            | .error err => .error err
            | .ok rec2 => .ok (updateWithAudit rec2 modifiedBy now)

/-- Embeds `updateAttendance(newAttendanceData, modifiedBy)`
(AttendanceRecord.model.js 616-635): for each student of the patch (a
falsy student id throws), replace that student's sessions through
`updateStudentAllSessions`. -/
def updateAttendance (rec : AttendanceRecord) :
    List (ℕ × List SessionEntry) → (modifiedBy : ℕ) → (now : ℕ) →
    Except ApiError AttendanceRecord
  | [], _, _ => .ok rec
  | (sid, ss) :: rest, modifiedBy, now =>
      if sid = 0 then .error .updateFailed
      else
        match updateStudentAllSessions rec sid ss modifiedBy now with
        | .error e => .error e
        | .ok rec1 => updateAttendance rec1 rest modifiedBy now

/-! ## Edit path (editAttendanceRecord, teacherController.js 635-786) -/

/-- The request body of `PATCH /api/teachers/attendance/:recordId`.
Optional fields are absent exactly when the source's truthiness guards
skip them. -/
structure EditRequest where
  attendance : Option (List (ℕ × List SessionEntry))
  startTime : Option String
  endTime : Option String
  isFinalized : Option Bool
  deriving DecidableEq

/-- Format check of an optional time field of the edit body. -/
def badTimeFormat : Option String → Bool
  | some s => ! timeRegexOK s
  | none => false

/-- The tail of `editAttendanceRecord` (teacherController.js 725-752)
applied after the attendance patch: the optional time updates, the
session-breakdown regeneration when a time changed (computed from the
now-stored times, so every well-formatted value is accepted as is), the
one-way finalize flag and the unconditional `lastModifiedAt` stamp. -/
def applyEditFields (rec1 : AttendanceRecord) (req : EditRequest) (now : ℕ) :
    AttendanceRecord :=
  let rec2 := match req.startTime with
    | some s => { rec1 with startTime := s }
    | none => rec1
  let rec3 := match req.endTime with
    | some e => { rec2 with endTime := e }
    | none => rec2
  let rec4 :=
    if req.startTime.isSome || req.endTime.isSome then
      { rec3 with
        sessionBreakdown :=
          generateSessionBreakdown rec3.startTime rec3.endTime rec3.numSessions }
    else rec3
  let rec5 :=
    if req.isFinalized = some true then { rec4 with isFinalized := true }
    else rec4
  { rec5 with lastModifiedAt := some now }

/-- The lookup, checks and in-memory document mutation of
`editAttendanceRecord` (teacherController.js 635-752): teacher profile
lookup, record lookup by record id, ownership check, finalization check,
time-format checks, attendance patch through `updateAttendance` (whose
thrown error is caught and answered with a 400, before any save), then
the remaining field updates of `applyEditFields`. -/
def editAttendanceRecordResult (db : DB) (userId : ℕ) (recordId : ℕ)
    (req : EditRequest) (now : ℕ) : Except ApiError AttendanceRecord :=
  match findFirst (fun t : Teacher => t.userId = userId) db.teachers with
  | none => .error .teacherNotFound
  | some teacher =>
      match findFirst (fun r : AttendanceRecord => r.recordId = recordId) db.records with
      | none => .error .recordNotFound
      | some rec =>
          if ¬ rec.teacherId = teacher.id then .error .notOwner
          else if rec.isFinalized = true then .error .alreadyFinalized
          else if badTimeFormat req.startTime = true then .error .badStartTimeFormat
          else if badTimeFormat req.endTime = true then .error .badEndTimeFormat
          else
            match (match req.attendance with
                   | some l => updateAttendance rec l userId now
                   | none => .ok rec) with
            | .error _ => .error .updateFailed
            | .ok rec1 => .ok (applyEditFields rec1 req now)

/-- Embeds `editAttendanceRecord` (teacherController.js 635-786) as an
operation on the store.  Every error return of the handler happens before
the single `save` call (line 752), so an error leaves the store as it
was; success replaces the stored document (found by its unique record id)
with the mutated one. -/
def editAttendanceRecord (db : DB) (userId : ℕ) (recordId : ℕ)
    (req : EditRequest) (now : ℕ) : Except ApiError AttendanceRecord × DB :=
  match editAttendanceRecordResult db userId recordId req now with
  | .error e => (.error e, db)
  | .ok rec6 =>
      (.ok rec6,
       { db with
         records :=
           updateFirst (fun r : AttendanceRecord => r.recordId = recordId)
             (fun _ => rec6) db.records })

/-! ## Per-subject aggregation (getAttendanceBySubject, studentController.js) -/

/-- The `summary` object of the `getAttendanceBySubject` response. -/
structure SubjectSummary where
  totalClasses : ℕ
  totalSessions : ℕ
  presentCount : ℕ
  absentCount : ℕ
  attendancePercentage : ℚ
  deriving DecidableEq

/-- The cumulative loop of `getAttendanceBySubject` (studentController.js
237-296): every record containing the student adds its `numSessions` and
that student's stored totals to the running sums. -/
def cumulativeTotals (sid : ℕ) : List AttendanceRecord → ℕ × ℕ × ℕ
  | [] => (0, 0, 0)
  | r :: rest =>
      let t := cumulativeTotals sid rest
      match findFirst (fun a : StudentAttendance => a.studentId = sid) r.attendance with
      | some e => (r.numSessions + t.1, e.totalPresent + t.2.1, e.totalAbsent + t.2.2)
      | none => t

/-- Embeds the summary computation of `getAttendanceBySubject`
(studentController.js 237-324): `totalClasses` is the number of fetched
records, the session and present/absent sums come from the cumulative
loop, and the overall percentage is the two-decimal rounding of
`presentCount / totalSessions * 100`, defined as 0 when no session was
held (this also covers the early return for an empty record list). -/
def getAttendanceBySubject (sid : ℕ) (records : List AttendanceRecord) :
    SubjectSummary :=
  let t := cumulativeTotals sid records
  { totalClasses := records.length
    totalSessions := t.1
    presentCount := t.2.1
    absentCount := t.2.2
    attendancePercentage :=
      if 0 < t.1 then roundTo2 ((t.2.1 : ℚ) / (t.1 : ℚ) * 100) else 0 }

/-- The Mongo query of `getAttendanceBySubject` (studentController.js
200-204, without the optional date range): records of the subject whose
`attendance` array contains the student. -/
def recordsForStudentSubject (db : DB) (sid subjectId : ℕ) : List AttendanceRecord :=
  db.records.filter fun r =>
    r.subjectId = subjectId ∧ ∃ a ∈ r.attendance, a.studentId = sid

/-! ## Reachable stores -/

/-- Stores reachable through the public attendance operations: any store
holding no attendance record yet, followed by arbitrary `markAttendance`
and `editAttendanceRecord` calls; the out-of-scope admin operations may
rearrange the other collections but never touch attendance records. -/
inductive Reachable : DB → Prop
  | init (db : DB) : db.records = [] → Reachable db
  | mark (db : DB) (userId : ℕ) (req : MarkRequest) (today now rid : ℕ) :
      Reachable db → Reachable (markAttendance db userId req today now rid).2
  | edit (db : DB) (userId recordId : ℕ) (req : EditRequest) (now : ℕ) :
      Reachable db → Reachable (editAttendanceRecord db userId recordId req now).2
  | env (db db' : DB) : Reachable db → db'.records = db.records → Reachable db'

/-! ## Concrete data for witnesses and counterexamples -/

/-- A teacher whose linked user id is 10. -/
def exTeacher : Teacher := { id := 1, userId := 10 }

/-- A student enrolled in subject 5. -/
def exStudent : Student := { id := 2, enrolledSubjects := [5] }

/-- An active class section of subject 5 whose roster holds student 2 as
active. -/
def exSection : ClassSection :=
  { id := 3, subjectId := 5, teacherId := 1, semester := 4,
    students := [{ studentId := 2, rosterStatus := "active" }], isActive := true }

/-- A store with the teacher, student and section above and no record. -/
def exDB : DB :=
  { teachers := [exTeacher], students := [exStudent], sections := [exSection],
    records := [] }

/-- A two-session mark-attendance request for student 2: present in
session 1, absent in session 2. -/
def exMarkReq : MarkRequest :=
  { classSectionId := 3, date := some 100, startTime := "09:00",
    endTime := "10:30", numSessions := 2,
    attendance := [(2, [{ sessionNumber := 1, status := "present" },
                        { sessionNumber := 2, status := "absent" }])] }

/-- The section of `exDB` with student 2 marked withdrawn instead of
active. -/
def exSectionWithdrawn : ClassSection :=
  { exSection with
    students := [{ studentId := 2, rosterStatus := "withdrawn" }] }

/-- The store of `exDB` with student 2 withdrawn from the roster. -/
def exDBWithdrawn : DB := { exDB with sections := [exSectionWithdrawn] }

/-- A stored, not yet finalized attendance record owned by teacher 1,
last modified by user 99. -/
def exRecord : AttendanceRecord :=
  { recordId := 7, subjectId := 5, classSectionId := 3, teacherId := 1,
    date := 100, startTime := "09:00", endTime := "10:30", semester := 4,
    numSessions := 2,
    sessionBreakdown := generateSessionBreakdown "09:00" "10:30" 2,
    attendance := [mkStudentAttendance 2 2 1 1
      [{ sessionNumber := 1, status := "present" },
       { sessionNumber := 2, status := "absent" }]],
    markedBy := 1, markedAt := 200, lastModifiedBy := some 99,
    lastModifiedAt := some 300, isFinalized := false }

/-- The store of `exDB` holding `exRecord`. -/
def exDBWithRecord : DB := { exDB with records := [exRecord] }

/-- The store of `exDB` holding `exRecord` already finalized. -/
def exDBFinalized : DB :=
  { exDB with records := [{ exRecord with isFinalized := true }] }

/-- An edit body that only finalizes. -/
def exFinalizeReq : EditRequest :=
  { attendance := none, startTime := none, endTime := none,
    isFinalized := some true }

/-- An edit body that moves the times to an end before the start. -/
def exTimeReq : EditRequest :=
  { attendance := none, startTime := some "23:00", endTime := some "09:00",
    isFinalized := none }

/-- Two records for student 2 in subject 5: two sessions with two
presents, then three sessions with one present. -/
def exAggRecords : List AttendanceRecord :=
  [{ exRecord with
      recordId := 11, numSessions := 2,
      attendance := [mkStudentAttendance 2 2 2 0
        [{ sessionNumber := 1, status := "present" },
         { sessionNumber := 2, status := "present" }]] },
   { exRecord with
      recordId := 12, numSessions := 3,
      attendance := [mkStudentAttendance 2 3 1 2
        [{ sessionNumber := 1, status := "present" },
         { sessionNumber := 2, status := "absent" },
         { sessionNumber := 3, status := "absent" }]] }]

/-- A mark-attendance request whose only flaw is a session array with one
entry where two are announced. -/
def exBadMarkReq : MarkRequest :=
  { exMarkReq with
      attendance := [(2, [{ sessionNumber := 1, status := "present" }])] }

/-- An edit body replacing student 2's first session by an absence. -/
def exEditReqAtt : EditRequest :=
  { attendance := some [(2, [{ sessionNumber := 1, status := "absent" }])],
    startTime := none, endTime := none, isFinalized := none }

/-- The record produced by applying `exEditReqAtt` to `exRecord` as user
10 at instant 777. -/
def exEditedRecord : AttendanceRecord :=
  { exRecord with
      attendance := [{ studentId := 2,
                       sessions := [{ sessionNumber := 1, status := "absent" },
                                    { sessionNumber := 2, status := "absent" }],
                       totalPresent := 0, totalAbsent := 2,
                       attendancePercentage := 0 }],
      lastModifiedBy := some 10, lastModifiedAt := some 777 }

/-- Decidable equality of results, used to evaluate the embedded
operations inside closed witness statements. -/
instance {ε α : Type} [DecidableEq ε] [DecidableEq α] : DecidableEq (Except ε α) :=
  fun x y =>
    match x, y with
    | .ok a, .ok b =>
        if h : a = b then .isTrue (by rw [h]) else .isFalse (by simp [h])
    | .error a, .error b =>
        if h : a = b then .isTrue (by rw [h]) else .isFalse (by simp [h])
    | .ok _, .error _ => .isFalse (by simp)
    | .error _, .ok _ => .isFalse (by simp)

/-! ## Lemmas on the list helpers -/

theorem findFirst_some {α : Type} {p : α → Prop} [DecidablePred p] {l : List α} {x : α}
    (h : findFirst p l = some x) : x ∈ l ∧ p x := by
  induction l with
  | nil => simp [findFirst] at h
  | cons a as ih =>
      by_cases ha : p a
      · simp [findFirst, ha] at h
        subst h
        exact ⟨List.mem_cons_self a as, ha⟩
      · simp [findFirst, ha] at h
        exact ⟨List.mem_cons_of_mem a (ih h).1, (ih h).2⟩

theorem findFirst_decomp {α : Type} {p : α → Prop} [DecidablePred p] {l : List α} {x : α}
    (h : findFirst p l = some x) :
    ∃ l₁ l₂, l = l₁ ++ x :: l₂ ∧ (∀ y ∈ l₁, ¬ p y) ∧ p x := by
  induction l with
  | nil => simp [findFirst] at h
  | cons a as ih =>
      by_cases ha : p a
      · simp [findFirst, ha] at h
        subst h
        exact ⟨[], as, rfl, by simp, ha⟩
      · simp [findFirst, ha] at h
        obtain ⟨l₁, l₂, hl, hnone, hx⟩ := ih h
        refine ⟨a :: l₁, l₂, by simp [hl], ?_, hx⟩
        intro y hy
        rcases List.mem_cons.mp hy with h1 | h2
        · subst h1; exact ha
        · exact hnone y h2

theorem findFirst_append_cons {α : Type} {p : α → Prop} [DecidablePred p]
    {l₁ : List α} (l₂ : List α) {x : α} (h₁ : ∀ y ∈ l₁, ¬ p y) (hx : p x) :
    findFirst p (l₁ ++ x :: l₂) = some x := by
  induction l₁ with
  | nil => simp [findFirst, hx]
  | cons a as ih =>
      have ha : ¬ p a := h₁ a (List.mem_cons_self a as)
      simp only [List.cons_append, findFirst, if_neg ha]
      exact ih fun y hy => h₁ y (List.mem_cons_of_mem a hy)

theorem updateFirst_append_cons {α : Type} {p : α → Prop} [DecidablePred p] (f : α → α)
    {l₁ : List α} (l₂ : List α) {x : α} (h₁ : ∀ y ∈ l₁, ¬ p y) (hx : p x) :
    updateFirst p f (l₁ ++ x :: l₂) = l₁ ++ f x :: l₂ := by
  induction l₁ with
  | nil => simp [updateFirst, hx]
  | cons a as ih =>
      have ha : ¬ p a := h₁ a (List.mem_cons_self a as)
      simp only [List.cons_append, updateFirst, if_neg ha]
      show a :: updateFirst p f (as ++ x :: l₂) = a :: (as ++ f x :: l₂)
      rw [ih fun y hy => h₁ y (List.mem_cons_of_mem a hy)]

theorem mem_updateFirst {α : Type} {p : α → Prop} [DecidablePred p] {f : α → α}
    {l : List α} {y : α} (h : y ∈ updateFirst p f l) :
    y ∈ l ∨ ∃ x, x ∈ l ∧ p x ∧ y = f x := by
  induction l with
  | nil => simp [updateFirst] at h
  | cons a as ih =>
      by_cases ha : p a
      · simp only [updateFirst, if_pos ha, List.mem_cons] at h
        rcases h with h | h
        · exact Or.inr ⟨a, List.mem_cons_self a as, ha, h⟩
        · exact Or.inl (List.mem_cons_of_mem a h)
      · simp only [updateFirst, if_neg ha, List.mem_cons] at h
        rcases h with h | h
        · exact Or.inl (by simp [h])
        · rcases ih h with h' | ⟨x, hx, hpx, hyx⟩
          · exact Or.inl (List.mem_cons_of_mem a h')
          · exact Or.inr ⟨x, List.mem_cons_of_mem a hx, hpx, hyx⟩

/-! ## Lemmas on HH:MM rendering and parsing -/

theorem digitVal_digitChar {d : ℕ} (h : d < 10) : digitVal (digitChar d) = d := by
  interval_cases d <;> decide

theorem digitChar_digitVal {c : Char} (h : 48 ≤ c.toNat) :
    digitChar (digitVal c) = c := by
  unfold digitChar digitVal
  rw [Nat.add_sub_cancel' h]
  exact Char.ofNat_toNat c

theorem toMin_fmtMin (t : ℕ) : toMin (fmtMin t) = t % 1440 := by
  have hm : t % 1440 < 1440 := Nat.mod_lt _ (by omega)
  have h1 : t % 1440 / 60 / 10 < 10 := by omega
  have h2 : t % 1440 / 60 % 10 < 10 := by omega
  have h3 : t % 1440 % 60 / 10 < 10 := by omega
  have h4 : t % 1440 % 60 % 10 < 10 := by omega
  show (digitVal (digitChar (t % 1440 / 60 / 10)) * 10 +
          digitVal (digitChar (t % 1440 / 60 % 10))) * 60 +
        (digitVal (digitChar (t % 1440 % 60 / 10)) * 10 +
          digitVal (digitChar (t % 1440 % 60 % 10))) = t % 1440
  rw [digitVal_digitChar h1, digitVal_digitChar h2, digitVal_digitChar h3,
      digitVal_digitChar h4]
  omega

theorem timeRegexOK_shape {l : List Char} (h : timeRegexOK (String.mk l) = true) :
    ∃ c1 c2 c3 c4 c5, l = [c1, c2, c3, c4, c5] := by
  match l, h with
  | [c1, c2, c3, c4, c5], _ => exact ⟨c1, c2, c3, c4, c5, rfl⟩
  | [], h => simp [timeRegexOK] at h
  | [_], h => simp [timeRegexOK] at h
  | [_, _], h => simp [timeRegexOK] at h
  | [_, _, _], h => simp [timeRegexOK] at h
  | [_, _, _, _], h => simp [timeRegexOK] at h
  | _ :: _ :: _ :: _ :: _ :: _ :: _, h => simp [timeRegexOK] at h

theorem fmtMin_toMin {s : String} (h : timeRegexOK s = true) :
    toMin s < 1440 ∧ fmtMin (toMin s) = s := by
  obtain ⟨l⟩ := s
  obtain ⟨c1, c2, c3, c4, c5, rfl⟩ := timeRegexOK_shape h
  simp only [timeRegexOK, charIn, Bool.and_eq_true, Bool.or_eq_true,
    decide_eq_true_eq, beq_iff_eq] at h
  obtain ⟨⟨⟨hh, hc3⟩, hb4⟩, hb5⟩ := h
  subst hc3
  have z0 : Char.toNat '0' = 48 := by decide
  have z1 : Char.toNat '1' = 49 := by decide
  have z3 : Char.toNat '3' = 51 := by decide
  have z5 : Char.toNat '5' = 53 := by decide
  have z9 : Char.toNat '9' = 57 := by decide
  simp only [z0, z1, z3, z5, z9] at hh hb4 hb5
  have hb1 : 48 ≤ c1.toNat ∧ c1.toNat ≤ 50 := by
    rcases hh with ⟨a, _⟩ | ⟨a, _⟩
    · omega
    · subst a; decide
  have hb2 : 48 ≤ c2.toNat ∧ c2.toNat ≤ 57 := by
    rcases hh with ⟨_, a, b⟩ | ⟨_, a, b⟩ <;> omega
  have hH : digitVal c1 * 10 + digitVal c2 ≤ 23 := by
    unfold digitVal
    rcases hh with ⟨a, b, c⟩ | ⟨a, b, c⟩
    · omega
    · have : c1.toNat = 50 := by subst a; decide
      omega
  have hM : digitVal c4 * 10 + digitVal c5 ≤ 59 := by
    unfold digitVal; omega
  have hlt : toMin (String.mk [c1, c2, ':', c4, c5]) < 1440 := by
    show (digitVal c1 * 10 + digitVal c2) * 60 + (digitVal c4 * 10 + digitVal c5) < 1440
    omega
  refine ⟨hlt, ?_⟩
  set H := digitVal c1 * 10 + digitVal c2 with hHdef
  set M := digitVal c4 * 10 + digitVal c5 with hMdef
  have hx : toMin (String.mk [c1, c2, ':', c4, c5]) = H * 60 + M := rfl
  have hv2 : digitVal c2 < 10 := by unfold digitVal; omega
  have hv5 : digitVal c5 < 10 := by unfold digitVal; omega
  have e0 : (H * 60 + M) % 1440 = H * 60 + M := by
    apply Nat.mod_eq_of_lt; omega
  have e1 : (H * 60 + M) % 1440 / 60 / 10 = digitVal c1 := by omega
  have e2 : (H * 60 + M) % 1440 / 60 % 10 = digitVal c2 := by omega
  have e3 : (H * 60 + M) % 1440 % 60 / 10 = digitVal c4 := by omega
  have e4 : (H * 60 + M) % 1440 % 60 % 10 = digitVal c5 := by omega
  rw [hx]
  show String.mk [digitChar ((H * 60 + M) % 1440 / 60 / 10),
    digitChar ((H * 60 + M) % 1440 / 60 % 10), ':',
    digitChar ((H * 60 + M) % 1440 % 60 / 10),
    digitChar ((H * 60 + M) % 1440 % 60 % 10)] = String.mk [c1, c2, ':', c4, c5]
  rw [e1, e2, e3, e4, digitChar_digitVal hb1.1, digitChar_digitVal hb2.1,
      digitChar_digitVal (by omega : 48 ≤ c4.toNat),
      digitChar_digitVal (by omega : 48 ≤ c5.toNat)]

/-! ## Lemmas on the session breakdown generator -/

theorem genSessions_length (cur i k : ℕ) : (genSessions cur i k).length = k := by
  induction k generalizing cur i with
  | zero => rfl
  | succ k ih => simp [genSessions, ih]

theorem genSessions_map_number (cur i k : ℕ) :
    (genSessions cur i k).map (fun s => s.sessionNumber) = List.range' i k := by
  induction k generalizing cur i with
  | zero => rfl
  | succ k ih => simp [genSessions, List.range'_succ, ih]

theorem genSessions_getElem (cur i k j : ℕ) (hj : j < k) :
    (genSessions cur i k)[j]? =
      some { sessionNumber := i + j,
             startTime := fmtMin (cur + j * SESSION_DURATION),
             endTime := fmtMin (cur + (j + 1) * SESSION_DURATION) } := by
  induction k generalizing cur i j with
  | zero => omega
  | succ k ih =>
      cases j with
      | zero => simp [genSessions]
      | succ j =>
          have step := ih (cur + SESSION_DURATION) (i + 1) j (by omega)
          simp only [genSessions, List.getElem?_cons_succ]
          rw [step]
          have e1 : i + 1 + j = i + (j + 1) := by omega
          have e2 : cur + SESSION_DURATION + j * SESSION_DURATION =
              cur + (j + 1) * SESSION_DURATION := by
            simp [SESSION_DURATION]; omega
          have e3 : cur + SESSION_DURATION + (j + 1) * SESSION_DURATION =
              cur + (j + 1 + 1) * SESSION_DURATION := by
            simp [SESSION_DURATION]; omega
          rw [e1, e2, e3]

theorem genSessions_mem (cur i k : ℕ) {slot : SessionSlot}
    (h : slot ∈ genSessions cur i k) :
    ∃ c, slot.startTime = fmtMin c ∧ slot.endTime = fmtMin (c + SESSION_DURATION) := by
  induction k generalizing cur i with
  | zero => simp [genSessions] at h
  | succ k ih =>
      simp only [genSessions, List.mem_cons] at h
      rcases h with h | h
      · exact ⟨cur, by simp [h], by simp [h]⟩
      · exact ih _ _ h

theorem genSessions_duration (cur i k : ℕ) {slot : SessionSlot}
    (h : slot ∈ genSessions cur i k) :
    toMin slot.endTime = (toMin slot.startTime + SESSION_DURATION) % 1440 := by
  obtain ⟨c, h1, h2⟩ := genSessions_mem cur i k h
  rw [h1, h2, toMin_fmtMin, toMin_fmtMin, Nat.mod_add_mod]

/-! ## Lemmas on the creation-path session checks -/

theorem checkSessionList_ok {n : ℕ} {ss : List SessionEntry} {pa : ℕ × ℕ}
    (h : checkSessionList n ss = .ok pa) :
    pa.1 + pa.2 = ss.length ∧
    pa.1 = ss.countP (fun s => s.status == "present") ∧
    ∀ s ∈ ss, 1 ≤ s.sessionNumber ∧ s.sessionNumber ≤ n ∧ isValidStatus s.status = true := by
  induction ss generalizing pa with
  | nil =>
      simp only [checkSessionList, Except.ok.injEq] at h
      subst h
      simp
  | cons s rest ih =>
      rw [checkSessionList] at h
      by_cases h1 : s.sessionNumber < 1 ∨ n < s.sessionNumber
      · rw [if_pos h1] at h; simp at h
      rw [if_neg h1] at h
      by_cases h2 : ¬ isValidStatus s.status = true
      · rw [if_pos h2] at h; simp at h
      rw [if_neg h2] at h
      push_neg at h1 h2
      cases hrec : checkSessionList n rest with
      | error e => rw [hrec] at h; simp at h
      | ok pa' =>
          rw [hrec] at h
          simp only [Except.ok.injEq] at h
          obtain ⟨hsum, hcount, hall⟩ := ih hrec
          subst h
          refine ⟨?_, ?_, ?_⟩
          · by_cases hps : s.status = "present" <;> simp [hps] <;> omega
          · by_cases hps : s.status = "present" <;>
              simp [hps, List.countP_cons, hcount]
          · intro x hx
            rcases List.mem_cons.mp hx with hx | hx
            · subst hx
              exact ⟨by omega, by omega, h2⟩
            · exact hall x hx

theorem checkSessionList_error {n : ℕ} {ss : List SessionEntry} {e : ApiError}
    (h : checkSessionList n ss = .error e) :
    e = .badSessionNumber ∨ e = .badStatus := by
  induction ss generalizing e with
  | nil => simp [checkSessionList] at h
  | cons s rest ih =>
      rw [checkSessionList] at h
      by_cases h1 : s.sessionNumber < 1 ∨ n < s.sessionNumber
      · rw [if_pos h1] at h
        simp only [Except.error.injEq] at h
        exact Or.inl h.symm
      rw [if_neg h1] at h
      by_cases h2 : ¬ isValidStatus s.status = true
      · rw [if_pos h2] at h
        simp only [Except.error.injEq] at h
        exact Or.inr h.symm
      rw [if_neg h2] at h
      cases hrec : checkSessionList n rest with
      | error e' =>
          rw [hrec] at h
          simp only [Except.error.injEq] at h
          subst h
          exact ih hrec
      | ok pa' => rw [hrec] at h; simp at h

theorem checkSessionList_accept {n : ℕ} {ss : List SessionEntry}
    (hrange : ∀ s ∈ ss, 1 ≤ s.sessionNumber ∧ s.sessionNumber ≤ n)
    (hval : ∀ s ∈ ss, isValidStatus s.status = true) :
    checkSessionList n ss =
      .ok (ss.countP (fun s => s.status == "present"),
           ss.countP (fun s => !(s.status == "present"))) := by
  induction ss with
  | nil => simp [checkSessionList]
  | cons s rest ih =>
      have h1 := hrange s (List.mem_cons_self s rest)
      have h2 := hval s (List.mem_cons_self s rest)
      rw [checkSessionList, if_neg (by omega), if_neg (by simp [h2]),
        ih (fun x hx => hrange x (List.mem_cons_of_mem s hx))
          (fun x hx => hval x (List.mem_cons_of_mem s hx))]
      by_cases hps : s.status = "present" <;>
        simp [hps, List.countP_cons]

theorem validateStudentSessions_ok {n : ℕ} {ss : List SessionEntry} {pa : ℕ × ℕ}
    (h : validateStudentSessions n ss = .ok pa) :
    ss.length = n ∧ pa.1 + pa.2 = n ∧
    pa.1 = ss.countP (fun s => s.status == "present") ∧
    (ss.map (fun s => s.sessionNumber)).Nodup ∧
    (∀ k, 1 ≤ k → k ≤ n → k ∈ ss.map (fun s => s.sessionNumber)) ∧
    (∀ s ∈ ss, isValidStatus s.status = true) := by
  rw [validateStudentSessions] at h
  by_cases hlen : ss.length ≠ n
  · rw [if_pos hlen] at h; simp at h
  rw [if_neg hlen] at h
  push_neg at hlen
  cases hc : checkSessionList n ss with
  | error e => rw [hc] at h; simp at h
  | ok pa' =>
      rw [hc] at h
      simp only at h
      by_cases hdup : (ss.map (fun s => s.sessionNumber)).dedup.length ≠
          (ss.map (fun s => s.sessionNumber)).length
      · rw [if_pos hdup] at h; simp at h
      rw [if_neg hdup] at h
      push_neg at hdup
      by_cases hmiss : ((List.range' 1 n).filter
          (fun k => decide (k ∉ ss.map (fun s => s.sessionNumber)))) ≠ []
      · rw [if_pos hmiss] at h; simp at h
      rw [if_neg hmiss] at h
      push_neg at hmiss
      simp only [Except.ok.injEq] at h
      subst h
      obtain ⟨hsum, hcount, hbound⟩ := checkSessionList_ok hc
      refine ⟨hlen, by omega, hcount, ?_, ?_, fun s hs => (hbound s hs).2.2⟩
      · have hsub : (ss.map (fun s => s.sessionNumber)).dedup.Sublist
            (ss.map (fun s => s.sessionNumber)) := List.dedup_sublist _
        have heq : (ss.map (fun s => s.sessionNumber)).dedup =
            ss.map (fun s => s.sessionNumber) := hsub.eq_of_length hdup
        rw [← heq]
        exact List.nodup_dedup _
      · intro k hk1 hk2
        by_contra hk
        have hmem : k ∈ (List.range' 1 n).filter
            (fun k => decide (k ∉ ss.map (fun s => s.sessionNumber))) := by
          rw [List.mem_filter]
          exact ⟨List.mem_range'_1.mpr ⟨hk1, by omega⟩, by simpa using hk⟩
        rw [hmiss] at hmem
        simp at hmem

theorem validateStudentSessions_error {n : ℕ} {ss : List SessionEntry} {e : ApiError}
    (h : validateStudentSessions n ss = .error e) :
    e.isValidationError = true := by
  rw [validateStudentSessions] at h
  by_cases hlen : ss.length ≠ n
  · rw [if_pos hlen] at h
    simp only [Except.error.injEq] at h
    subst h; rfl
  rw [if_neg hlen] at h
  cases hc : checkSessionList n ss with
  | error e' =>
      rw [hc] at h
      simp only [Except.error.injEq] at h
      subst h
      rcases checkSessionList_error hc with h | h <;> subst h <;> rfl
  | ok pa' =>
      rw [hc] at h
      simp only at h
      by_cases hdup : (ss.map (fun s => s.sessionNumber)).dedup.length ≠
          (ss.map (fun s => s.sessionNumber)).length
      · rw [if_pos hdup] at h
        simp only [Except.error.injEq] at h
        subst h; rfl
      rw [if_neg hdup] at h
      by_cases hmiss : ((List.range' 1 n).filter
          (fun k => decide (k ∉ ss.map (fun s => s.sessionNumber)))) ≠ []
      · rw [if_pos hmiss] at h
        simp only [Except.error.injEq] at h
        subst h; rfl
      · rw [if_neg hmiss] at h; simp at h

theorem validateStudentSessions_accept {n : ℕ} {ss : List SessionEntry}
    (hperm : (ss.map (fun s => s.sessionNumber)).Perm (List.range' 1 n))
    (hval : ∀ s ∈ ss, isValidStatus s.status = true) :
    validateStudentSessions n ss =
      .ok (ss.countP (fun s => s.status == "present"),
           ss.countP (fun s => !(s.status == "present"))) := by
  have hlen : ss.length = n := by
    have := hperm.length_eq
    simpa using this
  have hnodup : (ss.map (fun s => s.sessionNumber)).Nodup :=
    hperm.nodup_iff.mpr (List.nodup_range' 1 n)
  have hrange : ∀ s ∈ ss, 1 ≤ s.sessionNumber ∧ s.sessionNumber ≤ n := by
    intro s hs
    have hmem : s.sessionNumber ∈ List.range' 1 n :=
      hperm.mem_iff.mp (List.mem_map.mpr ⟨s, hs, rfl⟩)
    have := List.mem_range'_1.mp hmem
    omega
  rw [validateStudentSessions, if_neg (by omega), checkSessionList_accept hrange hval]
  simp only
  rw [if_neg (by rw [List.dedup_eq_self.mpr hnodup]; simp),
      if_neg (by
        simp only [ne_eq, not_not]
        rw [List.filter_eq_nil_iff]
        intro k hk
        have : k ∈ ss.map (fun s => s.sessionNumber) := hperm.mem_iff.mpr hk
        simp [this])]

/-! ## Lemmas on the record instance methods -/

theorem countP_present_absent {ss : List SessionEntry}
    (hval : ∀ s ∈ ss, isValidStatus s.status = true) :
    ss.countP (fun s => s.status == "present") +
      ss.countP (fun s => s.status == "absent") = ss.length := by
  induction ss with
  | nil => simp
  | cons s rest ih =>
      have hv := hval s (List.mem_cons_self s rest)
      have hrest := ih fun x hx => hval x (List.mem_cons_of_mem s hx)
      simp only [isValidStatus, Bool.or_eq_true, beq_iff_eq] at hv
      rcases hv with hv | hv
      · simp only [List.countP_cons, hv, List.length_cons]
        simp
        omega
      · simp only [List.countP_cons, hv, List.length_cons]
        simp
        omega

theorem calculateStudentTotals_eq {rec : AttendanceRecord} {sid : ℕ}
    {l₁ l₂ : List StudentAttendance} {e : StudentAttendance}
    (hdec : rec.attendance = l₁ ++ e :: l₂)
    (h₁ : ∀ y ∈ l₁, ¬ y.studentId = sid) (he : e.studentId = sid) :
    calculateStudentTotals rec sid =
      if e.sessions.countP (fun s => s.status == "present") +
         e.sessions.countP (fun s => s.status == "absent") = rec.numSessions then
        .ok { rec with attendance := l₁ ++
          { e with
              totalPresent := e.sessions.countP (fun s => s.status == "present"),
              totalAbsent := e.sessions.countP (fun s => s.status == "absent"),
              attendancePercentage := roundTo2
                ((e.sessions.countP (fun s => s.status == "present") : ℚ) /
                  (rec.numSessions : ℚ) * 100) } :: l₂ }
      else .error .updateFailed := by
  rw [calculateStudentTotals, hdec, findFirst_append_cons l₂ h₁ he]
  simp only [ne_eq]
  by_cases hchk : e.sessions.countP (fun s => s.status == "present") +
      e.sessions.countP (fun s => s.status == "absent") = rec.numSessions
  · rw [if_neg (not_not_intro hchk), if_pos hchk,
      updateFirst_append_cons _ l₂ h₁ he]
  · rw [if_pos hchk, if_neg hchk]

theorem updateStudentAllSessions_decomp {rec rec' : AttendanceRecord}
    {sid m now : ℕ} {data : List SessionEntry}
    (h : updateStudentAllSessions rec sid data m now = .ok rec') :
    ∃ l₁ e l₂ e', rec.attendance = l₁ ++ e :: l₂ ∧
      (∀ y ∈ l₁, ¬ y.studentId = sid) ∧ e.studentId = sid ∧
      e'.totalPresent + e'.totalAbsent = rec.numSessions ∧ e'.studentId = sid ∧
      rec' = { rec with
                attendance := l₁ ++ e' :: l₂,
                lastModifiedBy := some m, lastModifiedAt := some now } := by
  rw [updateStudentAllSessions] at h
  cases hf : findFirst (fun a : StudentAttendance => a.studentId = sid) rec.attendance with
  | none => rw [hf] at h; simp at h
  | some e0 =>
      rw [hf] at h
      simp only [] at h
      by_cases hni : data = []
      · rw [if_pos hni] at h; simp at h
      rw [if_neg hni] at h
      cases hap : applySessionUpdates e0.sessions data with
      | error err => rw [hap] at h; simp at h
      | ok newSessions =>
          rw [hap] at h
          simp only [] at h
          obtain ⟨l₁, l₂, hdec, h₁, he⟩ := findFirst_decomp hf
          have hupd : updateFirst (fun x : StudentAttendance => x.studentId = sid)
              (fun x => { x with sessions := newSessions }) rec.attendance =
              l₁ ++ { e0 with sessions := newSessions } :: l₂ := by
            rw [hdec]; exact updateFirst_append_cons _ l₂ h₁ he
          rw [hupd] at h
          have he1 : ({ e0 with sessions := newSessions } :
              StudentAttendance).studentId = sid := he
          have hdec1 : ({ rec with attendance := l₁ ++ { e0 with sessions := newSessions } :: l₂ } : AttendanceRecord).attendance = l₁ ++ { e0 with sessions := newSessions } :: l₂ := rfl
          rw [calculateStudentTotals_eq hdec1 h₁ he1] at h
          by_cases hchk : newSessions.countP (fun s => s.status == "present") +
              newSessions.countP (fun s => s.status == "absent") = rec.numSessions
          · rw [if_pos (by simpa using hchk)] at h
            simp only [Except.ok.injEq] at h
            subst h
            refine ⟨l₁, e0, l₂,
              { studentId := e0.studentId, sessions := newSessions,
                totalPresent := newSessions.countP (fun s => s.status == "present"),
                totalAbsent := newSessions.countP (fun s => s.status == "absent"),
                attendancePercentage := roundTo2
                  ((newSessions.countP (fun s => s.status == "present") : ℚ) /
                    (rec.numSessions : ℚ) * 100) },
              hdec, h₁, he, by simpa using hchk, he, rfl⟩
          · rw [if_neg (by simpa using hchk)] at h
            simp at h

theorem updateAttendance_ok {rec rec' : AttendanceRecord}
    {data : List (ℕ × List SessionEntry)} {m now : ℕ}
    (h : updateAttendance rec data m now = .ok rec') :
    rec'.numSessions = rec.numSessions ∧ rec'.recordId = rec.recordId ∧
    rec'.startTime = rec.startTime ∧ rec'.endTime = rec.endTime ∧
    rec'.isFinalized = rec.isFinalized ∧
    (data = [] → rec' = rec) ∧
    (data ≠ [] → rec'.lastModifiedBy = some m ∧ rec'.lastModifiedAt = some now) ∧
    (∀ e ∈ rec'.attendance,
      e.totalPresent + e.totalAbsent = rec.numSessions ∨ e ∈ rec.attendance) := by
  induction data generalizing rec with
  | nil =>
      simp only [updateAttendance, Except.ok.injEq] at h
      subst h
      exact ⟨rfl, rfl, rfl, rfl, rfl, fun _ => rfl, fun hc => absurd rfl hc,
        fun e he => Or.inr he⟩
  | cons p rest ih =>
      obtain ⟨sid, ss⟩ := p
      rw [updateAttendance] at h
      by_cases hz : sid = 0
      · rw [if_pos hz] at h; simp at h
      rw [if_neg hz] at h
      cases hu : updateStudentAllSessions rec sid ss m now with
      | error err => rw [hu] at h; simp at h
      | ok rec1 =>
          rw [hu] at h
          obtain ⟨l₁, e0, l₂, e1, hdec, h₁, he0, hsum, he1, hrec1⟩ :=
            updateStudentAllSessions_decomp hu
          obtain ⟨ihn, ihid, ihst, ihet, ihfin, ihnil, ihlast, ihmem⟩ := ih h
          have hn1 : rec1.numSessions = rec.numSessions := by rw [hrec1]
          refine ⟨by rw [ihn, hn1], by rw [ihid, hrec1], by rw [ihst, hrec1],
            by rw [ihet, hrec1], by rw [ihfin, hrec1],
            fun hc => absurd hc (List.cons_ne_nil _ _), fun _ => ?_, ?_⟩
          · by_cases hr : rest = []
            · rw [ihnil hr, hrec1]
              exact ⟨rfl, rfl⟩
            · exact ihlast hr
          · intro e he
            rcases ihmem e he with hs | hm
            · exact Or.inl (by rw [← hn1]; exact hs)
            · rw [hrec1] at hm
              simp only [List.mem_append, List.mem_cons] at hm
              rcases hm with hm | hm | hm
              · exact Or.inr (by rw [hdec]; simp [hm])
              · subst hm; exact Or.inl hsum
              · exact Or.inr (by rw [hdec]; simp [hm])

/-! ## Lemmas on the handlers -/

theorem validateStudentEntry_ok {db : DB} {cs : ClassSection} {n sid : ℕ}
    {ss : List SessionEntry} {v : StudentAttendance}
    (h : validateStudentEntry db cs n sid ss = .ok v) :
    v.totalPresent + v.totalAbsent = n := by
  rw [validateStudentEntry] at h
  cases hf : findFirst (fun s : Student => s.id = sid) db.students with
  | none => rw [hf] at h; simp at h
  | some student =>
      rw [hf] at h
      simp only [] at h
      by_cases h1 : ¬ cs.subjectId ∈ student.enrolledSubjects
      · rw [if_pos h1] at h; simp at h
      rw [if_neg h1] at h
      by_cases h2 : ¬ ∃ e ∈ cs.students, e.studentId = sid
      · rw [if_pos h2] at h; simp at h
      rw [if_neg h2] at h
      cases hv : validateStudentSessions n ss with
      | error e => rw [hv] at h; simp at h
      | ok pa =>
          rw [hv] at h
          simp only [Except.ok.injEq] at h
          subst h
          exact (validateStudentSessions_ok hv).2.1

theorem validateAttendanceList_ok {db : DB} {cs : ClassSection} {n : ℕ}
    {l : List (ℕ × List SessionEntry)} {vs : List StudentAttendance}
    (h : validateAttendanceList db cs n l = .ok vs) :
    ∀ v ∈ vs, v.totalPresent + v.totalAbsent = n := by
  induction l generalizing vs with
  | nil =>
      simp only [validateAttendanceList, Except.ok.injEq] at h
      subst h
      simp
  | cons p rest ih =>
      obtain ⟨sid, ss⟩ := p
      rw [validateAttendanceList] at h
      cases hv : validateStudentEntry db cs n sid ss with
      | error e => rw [hv] at h; simp at h
      | ok v0 =>
          rw [hv] at h
          simp only [] at h
          cases hrest : validateAttendanceList db cs n rest with
          | error e => rw [hrest] at h; simp at h
          | ok vs0 =>
              rw [hrest] at h
              simp only [Except.ok.injEq] at h
              subst h
              intro v hv'
              rcases List.mem_cons.mp hv' with hv' | hv'
              · subst hv'; exact validateStudentEntry_ok hv
              · exact ih hrest v hv'

theorem markAttendanceResult_ok {db : DB} {userId : ℕ} {req : MarkRequest}
    {today now rid : ℕ} {r : AttendanceRecord}
    (h : markAttendanceResult db userId req today now rid = .ok r) :
    ∀ e ∈ r.attendance, e.totalPresent + e.totalAbsent = r.numSessions := by
  rw [markAttendanceResult] at h
  by_cases c1 : req.startTime = "" ∨ req.endTime = "" ∨ req.numSessions = 0
  · rw [if_pos c1] at h; simp at h
  rw [if_neg c1] at h
  by_cases c2 : req.numSessions < 1 ∨ MAX_SESSIONS_PER_CLASS < req.numSessions
  · rw [if_pos c2] at h; simp at h
  rw [if_neg c2] at h
  by_cases c3 : ¬ timeRegexOK req.startTime = true
  · rw [if_pos c3] at h; simp at h
  rw [if_neg c3] at h
  by_cases c4 : ¬ timeRegexOK req.endTime = true
  · rw [if_pos c4] at h; simp at h
  rw [if_neg c4] at h
  by_cases c5 : toMin req.endTime ≤ toMin req.startTime
  · rw [if_pos c5] at h; simp at h
  rw [if_neg c5] at h
  by_cases c6 : toMin req.endTime - toMin req.startTime <
      req.numSessions * SESSION_DURATION
  · rw [if_pos c6] at h; simp at h
  rw [if_neg c6] at h
  by_cases c7 : req.attendance = []
  · rw [if_pos c7] at h; simp at h
  rw [if_neg c7] at h
  cases hT : findFirst (fun t : Teacher => t.userId = userId) db.teachers with
  | none => rw [hT] at h; simp at h
  | some teacher =>
  rw [hT] at h
  simp only [] at h
  cases hS : findFirst (fun c : ClassSection => c.id = req.classSectionId) db.sections with
  | none => rw [hS] at h; simp at h
  | some cs =>
  rw [hS] at h
  simp only [] at h
  by_cases c8 : ¬ cs.isActive = true
  · rw [if_pos c8] at h; simp at h
  rw [if_neg c8] at h
  by_cases c9 : ¬ cs.teacherId = teacher.id
  · rw [if_pos c9] at h; simp at h
  rw [if_neg c9] at h
  cases hD : req.date with
  | none => rw [hD] at h; simp at h
  | some d =>
  rw [hD] at h
  simp only [] at h
  by_cases c10 : today < d
  · rw [if_pos c10] at h; simp at h
  rw [if_neg c10] at h
  cases hV : validateAttendanceList db cs req.numSessions req.attendance with
  | error e => rw [hV] at h; simp at h
  | ok validated =>
  rw [hV] at h
  simp only [Except.ok.injEq] at h
  subst h
  exact fun e he => validateAttendanceList_ok hV e he

theorem markAttendance_cases (db : DB) (userId : ℕ) (req : MarkRequest)
    (today now rid : ℕ) :
    (markAttendance db userId req today now rid).2 = db ∨
    ∃ r, (markAttendance db userId req today now rid).1 = .ok r ∧
      (markAttendance db userId req today now rid).2 =
        { db with records := db.records ++ [r] } ∧
      (∀ e ∈ r.attendance, e.totalPresent + e.totalAbsent = r.numSessions) := by
  cases hr : markAttendanceResult db userId req today now rid with
  | error e =>
      left
      rw [markAttendance, hr]
  | ok r =>
      right
      exact ⟨r, by rw [markAttendance, hr], by rw [markAttendance, hr],
        markAttendanceResult_ok hr⟩

theorem applyEditFields_fields (rec1 : AttendanceRecord) (req : EditRequest)
    (now : ℕ) :
    (applyEditFields rec1 req now).numSessions = rec1.numSessions ∧
    (applyEditFields rec1 req now).recordId = rec1.recordId ∧
    (applyEditFields rec1 req now).attendance = rec1.attendance ∧
    (applyEditFields rec1 req now).lastModifiedBy = rec1.lastModifiedBy ∧
    (applyEditFields rec1 req now).lastModifiedAt = some now := by
  obtain ⟨att, st, et, fin⟩ := req
  by_cases hf : fin = some true <;> cases st <;> cases et <;>
    simp [applyEditFields, hf]

theorem editAttendanceRecordResult_ok {db : DB} {userId recordId : ℕ}
    {req : EditRequest} {now : ℕ} {rec' : AttendanceRecord}
    (h : editAttendanceRecordResult db userId recordId req now = .ok rec') :
    ∃ rec,
      findFirst (fun r : AttendanceRecord => r.recordId = recordId) db.records =
        some rec ∧
      rec.isFinalized = false ∧
      rec'.numSessions = rec.numSessions ∧
      rec'.lastModifiedAt = some now ∧
      (req.attendance = none ∨ req.attendance = some [] →
        rec'.lastModifiedBy = rec.lastModifiedBy) ∧
      (∀ x l, req.attendance = some (x :: l) → rec'.lastModifiedBy = some userId) ∧
      (∀ e ∈ rec'.attendance,
        e.totalPresent + e.totalAbsent = rec.numSessions ∨ e ∈ rec.attendance) := by
  rw [editAttendanceRecordResult] at h
  cases hT : findFirst (fun t : Teacher => t.userId = userId) db.teachers with
  | none => rw [hT] at h; simp at h
  | some teacher =>
  rw [hT] at h
  simp only [] at h
  cases hR : findFirst (fun r : AttendanceRecord => r.recordId = recordId) db.records with
  | none => rw [hR] at h; simp at h
  | some rec =>
  rw [hR] at h
  simp only [] at h
  by_cases c1 : ¬ rec.teacherId = teacher.id
  · rw [if_pos c1] at h; simp at h
  rw [if_neg c1] at h
  by_cases c2 : rec.isFinalized = true
  · rw [if_pos c2] at h; simp at h
  rw [if_neg c2] at h
  by_cases c3 : badTimeFormat req.startTime = true
  · rw [if_pos c3] at h; simp at h
  rw [if_neg c3] at h
  by_cases c4 : badTimeFormat req.endTime = true
  · rw [if_pos c4] at h; simp at h
  rw [if_neg c4] at h
  cases haf : req.attendance with
  | none =>
      rw [haf] at h
      simp only [] at h
      simp only [Except.ok.injEq] at h
      subst h
      obtain ⟨hn, hid, hatt, hby, hat⟩ := applyEditFields_fields rec req now
      refine ⟨rec, rfl, by simpa using c2, hn, hat, fun _ => hby, ?_, ?_⟩
      · intro x l hxl
        exact Option.noConfusion hxl
      · intro e he
        rw [hatt] at he
        exact Or.inr he
  | some l =>
      rw [haf] at h
      simp only [] at h
      cases hu : updateAttendance rec l userId now with
      | error e => rw [hu] at h; simp at h
      | ok rec1 =>
      rw [hu] at h
      simp only [Except.ok.injEq] at h
      subst h
      obtain ⟨hn1, _, _, _, _, hnil, hlast, hmem⟩ := updateAttendance_ok hu
      obtain ⟨hn', hid', hatt', hby', hat'⟩ := applyEditFields_fields rec1 req now
      refine ⟨rec, rfl, by simpa using c2, by rw [hn', hn1], hat', ?_, ?_, ?_⟩
      · rintro (hc | hc)
        · exact Option.noConfusion hc
        · injection hc with hc
          subst hc
          rw [hby', hnil rfl]
      · intro x l' hxl
        injection hxl with hxl
        subst hxl
        rw [hby', (hlast (List.cons_ne_nil x l')).1]
      · intro e he
        rw [hatt'] at he
        exact hmem e he

theorem editAttendanceRecord_cases (db : DB) (userId recordId : ℕ)
    (req : EditRequest) (now : ℕ) :
    (editAttendanceRecord db userId recordId req now).2 = db ∨
    ∃ rec rec',
      findFirst (fun r : AttendanceRecord => r.recordId = recordId) db.records =
        some rec ∧
      (editAttendanceRecord db userId recordId req now).1 = .ok rec' ∧
      (editAttendanceRecord db userId recordId req now).2 =
        { db with
            records := updateFirst
              (fun r : AttendanceRecord => r.recordId = recordId)
              (fun _ => rec') db.records } ∧
      rec'.numSessions = rec.numSessions ∧
      (∀ e ∈ rec'.attendance,
        e.totalPresent + e.totalAbsent = rec.numSessions ∨ e ∈ rec.attendance) := by
  cases hr : editAttendanceRecordResult db userId recordId req now with
  | error e =>
      left
      rw [editAttendanceRecord, hr]
  | ok rec' =>
      right
      obtain ⟨rec, hR, _, hn, _, _, _, hmem⟩ := editAttendanceRecordResult_ok hr
      exact ⟨rec, rec', hR, by rw [editAttendanceRecord, hr],
        by rw [editAttendanceRecord, hr], hn, hmem⟩

theorem findFirst_eq_none {α : Type} {p : α → Prop} [DecidablePred p] {l : List α} :
    findFirst p l = none ↔ ∀ x ∈ l, ¬ p x := by
  induction l with
  | nil => simp [findFirst]
  | cons a as ih =>
      by_cases ha : p a
      · simp [findFirst, ha]
      · simp [findFirst, ha, ih]

theorem validateStudentSessions_error_mem {n : ℕ} {ss : List SessionEntry}
    {e : ApiError} (h : validateStudentSessions n ss = .error e) :
    e = .wrongSessionCount ∨ e = .badSessionNumber ∨ e = .badStatus ∨
    e = .duplicateSessions ∨ e = .missingSessions := by
  rw [validateStudentSessions] at h
  by_cases hlen : ss.length ≠ n
  · rw [if_pos hlen] at h
    simp only [Except.error.injEq] at h
    subst h
    exact Or.inl rfl
  rw [if_neg hlen] at h
  cases hc : checkSessionList n ss with
  | error e' =>
      rw [hc] at h
      simp only [Except.error.injEq] at h
      subst h
      rcases checkSessionList_error hc with h | h <;> subst h <;> simp
  | ok pa' =>
      rw [hc] at h
      simp only [] at h
      by_cases hdup : (ss.map (fun s => s.sessionNumber)).dedup.length ≠
          (ss.map (fun s => s.sessionNumber)).length
      · rw [if_pos hdup] at h
        simp only [Except.error.injEq] at h
        subst h
        simp
      rw [if_neg hdup] at h
      by_cases hmiss : ((List.range' 1 n).filter
          (fun k => decide (k ∉ ss.map (fun s => s.sessionNumber)))) ≠ []
      · rw [if_pos hmiss] at h
        simp only [Except.error.injEq] at h
        subst h
        simp
      · rw [if_neg hmiss] at h; simp at h

/-! ## Lemmas on the per-subject aggregation -/

theorem cumulativeTotals_eq {sid : ℕ} {records : List AttendanceRecord}
    (hall : ∀ r ∈ records, ∃ a ∈ r.attendance, a.studentId = sid) :
    cumulativeTotals sid records =
      ((records.map (fun r => r.numSessions)).sum,
       (records.map (fun r =>
         ((findFirst (fun a : StudentAttendance => a.studentId = sid)
             r.attendance).map (fun a => a.totalPresent)).getD 0)).sum,
       (records.map (fun r =>
         ((findFirst (fun a : StudentAttendance => a.studentId = sid)
             r.attendance).map (fun a => a.totalAbsent)).getD 0)).sum) := by
  induction records with
  | nil => simp [cumulativeTotals]
  | cons r rest ih =>
      have hr := hall r (List.mem_cons_self r rest)
      have hrest := ih fun x hx => hall x (List.mem_cons_of_mem r hx)
      rw [cumulativeTotals, hrest]
      cases hf : findFirst (fun a : StudentAttendance => a.studentId = sid)
          r.attendance with
      | none =>
          exfalso
          obtain ⟨a, ha, hpa⟩ := hr
          exact (findFirst_eq_none.mp hf) a ha hpa
      | some a => simp [hf]

/-! ## Claim theorems -/

/-- C1: for every AttendanceRecord reachable through the public
operations (mark-attendance creation and every edit path), and for every
student entry in it, totalPresent + totalAbsent = numSessions holds after
the operation completes successfully.  Creation establishes the equation
through the session-count validation, and both edit paths re-establish it
through the defensive check of `calculateStudentTotals`; failed
operations leave the store untouched. -/
theorem reachable_totals_invariant {db : DB} (h : Reachable db) :
    ∀ r ∈ db.records, ∀ e ∈ r.attendance,
      e.totalPresent + e.totalAbsent = r.numSessions := by
  induction h with
  | init db hdb =>
      intro r hr
      rw [hdb] at hr
      simp at hr
  | mark db userId req today now rid hreach ih =>
      rcases markAttendance_cases db userId req today now rid with
        hsame | ⟨r0, hok, hdb2, hwf⟩
      · rw [hsame]; exact ih
      · rw [hdb2]
        intro r hr
        simp only [List.mem_append, List.mem_singleton] at hr
        rcases hr with hr | hr
        · exact ih r hr
        · subst hr; exact hwf
  | edit db userId recordId req now hreach ih =>
      rcases editAttendanceRecord_cases db userId recordId req now with
        hsame | ⟨rec, rec', hR, hok, hdb2, hn, hmem⟩
      · rw [hsame]; exact ih
      · rw [hdb2]
        intro r hr
        rcases mem_updateFirst hr with hr | ⟨x, hx, _, hrx⟩
        · exact ih r hr
        · subst hrx
          intro e he
          rw [hn]
          rcases hmem e he with hs | hm
          · exact hs
          · exact ih rec (findFirst_some hR).1 e hm
  | env db db' hreach hrecords ih =>
      intro r hr
      rw [hrecords] at hr
      exact ih r hr

/-- Witness for C1: the store obtained from an empty store by one
successful mark-attendance call is reachable, and every stored student
entry satisfies totalPresent + totalAbsent = numSessions. -/
theorem reachable_totals_invariant_witness :
    Reachable (markAttendance exDB 10 exMarkReq 100 200 7).2 ∧
    ((markAttendance exDB 10 exMarkReq 100 200 7).2.records.all
      (fun r => r.attendance.all
        (fun e => e.totalPresent + e.totalAbsent == r.numSessions))) = true := by
  have hre : Reachable (markAttendance exDB 10 exMarkReq 100 200 7).2 :=
    Reachable.mark exDB 10 exMarkReq 100 200 7 (Reachable.init exDB rfl)
  have hinv := reachable_totals_invariant hre
  refine ⟨hre, ?_⟩
  rw [List.all_eq_true]
  intro r hr
  rw [List.all_eq_true]
  intro e he
  simpa using hinv r hr e he

/-- C2: in the creation path, a sessions array with a duplicate session
number or a gap in 1..numSessions is rejected with a ValidationError
(status 400), and every sessions array whose numbers are exactly a
permutation of 1..numSessions (with valid statuses) passes the session
checks. -/
theorem session_coverage (n : ℕ) (ss : List SessionEntry) :
    ((¬ (ss.map (fun s => s.sessionNumber)).Nodup ∨
        ∃ k, 1 ≤ k ∧ k ≤ n ∧ k ∉ ss.map (fun s => s.sessionNumber)) →
      ∃ e, validateStudentSessions n ss = .error e ∧ e.isValidationError = true) ∧
    ((ss.map (fun s => s.sessionNumber)).Perm (List.range' 1 n) →
      (∀ s ∈ ss, isValidStatus s.status = true) →
      ∃ pa, validateStudentSessions n ss = .ok pa) := by
  constructor
  · intro hbad
    cases hv : validateStudentSessions n ss with
    | error e =>
        refine ⟨e, rfl, ?_⟩
        rcases validateStudentSessions_error_mem hv with h | h | h | h | h <;>
          subst h <;> rfl
    | ok pa =>
        exfalso
        obtain ⟨hlen, _, _, hnodup, hcover, _⟩ := validateStudentSessions_ok hv
        rcases hbad with hbad | ⟨k, hk1, hk2, hk3⟩
        · exact hbad hnodup
        · exact hk3 (hcover k hk1 hk2)
  · intro hperm hval
    exact ⟨_, validateStudentSessions_accept hperm hval⟩

/-- Witness for C2: with two announced sessions, the array
[session 1, session 1] is rejected with the duplicate-session
ValidationError, while the permutation [session 2, session 1] passes. -/
theorem session_coverage_witness :
    validateStudentSessions 2
      [{ sessionNumber := 1, status := "present" },
       { sessionNumber := 1, status := "absent" }] =
      .error ApiError.duplicateSessions ∧
    ApiError.duplicateSessions.isValidationError = true ∧
    validateStudentSessions 2
      [{ sessionNumber := 2, status := "present" },
       { sessionNumber := 1, status := "absent" }] = .ok (1, 1) := by
  obtain ⟨e, he, hev⟩ := (session_coverage 2
    [{ sessionNumber := 1, status := "present" },
     { sessionNumber := 1, status := "absent" }]).1 (Or.inl (by decide))
  obtain ⟨pa, hpa⟩ := (session_coverage 2
    [{ sessionNumber := 2, status := "present" },
     { sessionNumber := 1, status := "absent" }]).2 (by decide) (by decide)
  exact ⟨by decide, by decide, by decide⟩

/-- C3: a finalized record rejects every edit by its owning teacher with
the AlreadyFinalized error, and no edit call on its record id (by any
caller) changes the store, hence no field of the record.  The spec orders
the checks NotFound, then Forbidden, then AlreadyFinalized, so the
specific error is stated for the owning teacher. -/
theorem finalized_record_rejects_edits (db : DB) (userId rid now : ℕ)
    (req : EditRequest) (t : Teacher) (rec : AttendanceRecord)
    (hT : findFirst (fun x : Teacher => x.userId = userId) db.teachers = some t)
    (hR : findFirst (fun r : AttendanceRecord => r.recordId = rid) db.records =
      some rec)
    (hOwn : rec.teacherId = t.id) (hFin : rec.isFinalized = true) :
    editAttendanceRecord db userId rid req now = (.error .alreadyFinalized, db) ∧
    ∀ u', (editAttendanceRecord db u' rid req now).2 = db := by
  have h1 : editAttendanceRecordResult db userId rid req now =
      .error .alreadyFinalized := by
    rw [editAttendanceRecordResult, hT]
    simp only []
    rw [hR]
    simp only []
    rw [if_neg (not_not_intro hOwn), if_pos hFin]
  refine ⟨by rw [editAttendanceRecord, h1], ?_⟩
  intro u'
  cases hT' : findFirst (fun x : Teacher => x.userId = u') db.teachers with
  | none =>
      have h2 : editAttendanceRecordResult db u' rid req now =
          .error .teacherNotFound := by
        rw [editAttendanceRecordResult, hT']
      rw [editAttendanceRecord, h2]
  | some t' =>
      by_cases ho : rec.teacherId = t'.id
      · have h2 : editAttendanceRecordResult db u' rid req now =
            .error .alreadyFinalized := by
          rw [editAttendanceRecordResult, hT']
          simp only []
          rw [hR]
          simp only []
          rw [if_neg (not_not_intro ho), if_pos hFin]
        rw [editAttendanceRecord, h2]
      · have h2 : editAttendanceRecordResult db u' rid req now =
            .error .notOwner := by
          rw [editAttendanceRecordResult, hT']
          simp only []
          rw [hR]
          simp only []
          rw [if_pos ho]
        rw [editAttendanceRecord, h2]

/-- Witness for C3: the finalize patch on the already finalized stored
record is rejected with AlreadyFinalized and the store is unchanged, also
for a caller with no teacher profile. -/
theorem finalized_record_rejects_edits_witness :
    editAttendanceRecord exDBFinalized 10 7 exFinalizeReq 777 =
      (.error .alreadyFinalized, exDBFinalized) ∧
    (editAttendanceRecord exDBFinalized 55 7 exFinalizeReq 777).2 =
      exDBFinalized := by
  have h := finalized_record_rejects_edits exDBFinalized 10 7 777 exFinalizeReq
    exTeacher { exRecord with isFinalized := true } rfl rfl rfl rfl
  exact ⟨h.1, h.2 55⟩

/-- C4: creation is all-or-nothing: whenever a mark-attendance call
returns an error (in particular when any validation step fails for a
student entry), no AttendanceRecord is persisted and the store is exactly
what it was. -/
theorem creation_atomic {db : DB} {userId : ℕ} {req : MarkRequest}
    {today now rid : ℕ} {e : ApiError}
    (h : (markAttendance db userId req today now rid).1 = .error e) :
    (markAttendance db userId req today now rid).2 = db := by
  rcases markAttendance_cases db userId req today now rid with
    hsame | ⟨r, hok, _, _⟩
  · exact hsame
  · rw [h] at hok
    exact Except.noConfusion hok

/-- Witness for C4: a call whose only flaw is one student's too-short
session array is rejected with a session-count ValidationError and leaves
the store with zero new records. -/
theorem creation_atomic_witness :
    (markAttendance exDB 10 exBadMarkReq 100 200 7).1 =
      .error .wrongSessionCount ∧
    (markAttendance exDB 10 exBadMarkReq 100 200 7).2 = exDB := by
  have h1 : (markAttendance exDB 10 exBadMarkReq 100 200 7).1 =
      .error .wrongSessionCount := by decide
  exact ⟨h1, creation_atomic h1⟩

/-- C5: for every student entry with a full, valid session array of
length numSessions holding p present marks (so 0 ≤ p ≤ numSessions,
numSessions ≥ 1), the totals computation succeeds and stores
totalPresent = p, totalAbsent = numSessions - p and attendancePercentage
equal to p / numSessions * 100 rounded to two decimal places (the exact
rational rounding that `parseFloat(x.toFixed(2))` realises on this
domain). -/
theorem percentage_correct (rec : AttendanceRecord) (sid p : ℕ)
    (e : StudentAttendance)
    (hfind : findFirst (fun a : StudentAttendance => a.studentId = sid)
      rec.attendance = some e)
    (hlen : e.sessions.length = rec.numSessions)
    (hval : ∀ s ∈ e.sessions, isValidStatus s.status = true)
    (hp : e.sessions.countP (fun s => s.status == "present") = p)
    (_hn : 1 ≤ rec.numSessions) :
    ∃ rec' e', calculateStudentTotals rec sid = .ok rec' ∧
      findFirst (fun a : StudentAttendance => a.studentId = sid)
        rec'.attendance = some e' ∧
      e'.totalPresent = p ∧ e'.totalAbsent = rec.numSessions - p ∧
      p ≤ rec.numSessions ∧
      e'.attendancePercentage =
        roundTo2 ((p : ℚ) / (rec.numSessions : ℚ) * 100) := by
  obtain ⟨l₁, l₂, hdec, h₁, he⟩ := findFirst_decomp hfind
  have hsum := countP_present_absent hval
  have hchk : e.sessions.countP (fun s => s.status == "present") +
      e.sessions.countP (fun s => s.status == "absent") = rec.numSessions := by
    omega
  rw [calculateStudentTotals_eq hdec h₁ he, if_pos hchk]
  refine ⟨_, _, rfl, findFirst_append_cons l₂ h₁ he, ?_, ?_, ?_, ?_⟩
  · exact hp
  · show e.sessions.countP (fun s => s.status == "absent") = rec.numSessions - p
    omega
  · omega
  · show roundTo2 ((e.sessions.countP (fun s => s.status == "present") : ℚ) /
        (rec.numSessions : ℚ) * 100) = _
    rw [hp]

/-- Witness for C5: the stored entry with sessions
[session 1 present, session 2 absent] and numSessions = 2 recomputes to
totalPresent = 1, totalAbsent = 1, and the percentage formula evaluates
to 50 (the 50.00 of the specification). -/
theorem percentage_correct_witness :
    ((calculateStudentTotals exRecord 2).toOption.map
      (fun r => r.attendance.map (fun a => (a.totalPresent, a.totalAbsent)))) =
      some [(1, 1)] ∧
    roundTo2 ((1 : ℚ) / (2 : ℚ) * 100) = 50 ∧
    1 ≤ exRecord.numSessions := by
  obtain ⟨rec', e', hok, hfind, hp, ha, hple, hpct⟩ :=
    percentage_correct exRecord 2 1
      (mkStudentAttendance 2 2 1 1
        [{ sessionNumber := 1, status := "present" },
         { sessionNumber := 2, status := "absent" }])
      rfl rfl (by decide) (by decide) (by decide)
  exact ⟨by decide, by norm_num [roundTo2], by decide⟩

/-- C6: for every HH:MM startTime and numSessions ≥ 1, the session
breakdown generator returns exactly numSessions segments numbered
1..numSessions in order, segment 1 starting at startTime, consecutive
segments contiguous, and every segment exactly SESSION_DURATION = 45
minutes long in clock (modulo one day) arithmetic; the stored endTime
argument plays no role.  For every input reachable from the creation
validation the wrap never occurs, so the durations are plain 45-minute
spans, as in the 09:00-10:30 example. -/
theorem session_breakdown_partition (s e : String) (n : ℕ)
    (hs : timeRegexOK s = true) (hn : 1 ≤ n) :
    (generateSessionBreakdown s e n).length = n ∧
    (generateSessionBreakdown s e n).map (fun slot => slot.sessionNumber) =
      List.range' 1 n ∧
    (∃ rest, generateSessionBreakdown s e n =
      { sessionNumber := 1, startTime := s,
        endTime := fmtMin (toMin s + SESSION_DURATION) } :: rest) ∧
    (∀ j, j + 1 < n →
      ((generateSessionBreakdown s e n)[j + 1]?).map (fun slot => slot.startTime) =
      ((generateSessionBreakdown s e n)[j]?).map (fun slot => slot.endTime)) ∧
    (∀ slot ∈ generateSessionBreakdown s e n,
      toMin slot.endTime = (toMin slot.startTime + SESSION_DURATION) % 1440) := by
  obtain ⟨hlt, hround⟩ := fmtMin_toMin hs
  refine ⟨genSessions_length _ _ _, genSessions_map_number _ _ _, ?_, ?_, ?_⟩
  · cases n with
    | zero => omega
    | succ k =>
        refine ⟨genSessions (toMin s + SESSION_DURATION) 2 k, ?_⟩
        show genSessions (toMin s) 1 (k + 1) = _
        rw [genSessions, hround]
  · intro j hj
    show ((genSessions (toMin s) 1 n)[j + 1]?).map _ =
      ((genSessions (toMin s) 1 n)[j]?).map _
    rw [genSessions_getElem _ 1 n (j + 1) (by omega),
        genSessions_getElem _ 1 n j (by omega)]
    simp
  · intro slot hslot
    exact genSessions_duration _ _ _ hslot

/-- Witness for C6: the generator at startTime 09:00 with two sessions
produces exactly the two contiguous 45-minute segments
[1, 09:00, 09:45] and [2, 09:45, 10:30] of the specification. -/
theorem session_breakdown_partition_witness :
    timeRegexOK "09:00" = true ∧
    (generateSessionBreakdown "09:00" "10:30" 2).length = 2 ∧
    generateSessionBreakdown "09:00" "10:30" 2 =
      [{ sessionNumber := 1, startTime := "09:00", endTime := "09:45" },
       { sessionNumber := 2, startTime := "09:45", endTime := "10:30" }] := by
  have h := session_breakdown_partition "09:00" "10:30" 2 (by decide) (by decide)
  exact ⟨by decide, h.1, by decide⟩

/-- C7: for every student and list of attendance records each containing
the student (the shape delivered by the Mongo query), the aggregate
reports totalClasses = the number of records containing the student,
totalSessions = the sum of their numSessions, presentCount and
absentCount = the sums of the stored per-record totals, and the
percentage is presentCount / totalSessions * 100 rounded to two decimals,
with 0 when totalSessions = 0. -/
theorem subject_aggregate_correct (sid : ℕ) (records : List AttendanceRecord)
    (hall : ∀ r ∈ records, ∃ a ∈ r.attendance, a.studentId = sid) :
    (getAttendanceBySubject sid records).totalClasses = records.length ∧
    (getAttendanceBySubject sid records).totalClasses =
      (records.filter
        (fun r => decide (∃ a ∈ r.attendance, a.studentId = sid))).length ∧
    (getAttendanceBySubject sid records).totalSessions =
      (records.map (fun r => r.numSessions)).sum ∧
    (getAttendanceBySubject sid records).presentCount =
      (records.map (fun r =>
        ((findFirst (fun a : StudentAttendance => a.studentId = sid)
            r.attendance).map (fun a => a.totalPresent)).getD 0)).sum ∧
    (getAttendanceBySubject sid records).absentCount =
      (records.map (fun r =>
        ((findFirst (fun a : StudentAttendance => a.studentId = sid)
            r.attendance).map (fun a => a.totalAbsent)).getD 0)).sum ∧
    (0 < (getAttendanceBySubject sid records).totalSessions →
      (getAttendanceBySubject sid records).attendancePercentage =
        roundTo2 (((getAttendanceBySubject sid records).presentCount : ℚ) /
          ((getAttendanceBySubject sid records).totalSessions : ℚ) * 100)) ∧
    ((getAttendanceBySubject sid records).totalSessions = 0 →
      (getAttendanceBySubject sid records).attendancePercentage = 0) := by
  have hfilter : records.filter
      (fun r => decide (∃ a ∈ r.attendance, a.studentId = sid)) = records := by
    rw [List.filter_eq_self]
    intro r hr
    simpa using hall r hr
  have hc := cumulativeTotals_eq hall
  simp only [getAttendanceBySubject, hc]
  refine ⟨trivial, by rw [hfilter], trivial, trivial, trivial, ?_, ?_⟩
  · intro hpos
    rw [if_pos hpos]
  · intro hzero
    rw [if_neg (by omega)]

/-- Witness for C7: two records for student 2 with session counts 2 and 3
and present counts 2 and 1 aggregate to totalClasses = 2,
totalSessions = 5, presentCount = 3, absentCount = 2 and percentage 60
(the 60.00 of the specification). -/
theorem subject_aggregate_correct_witness :
    (getAttendanceBySubject 2 exAggRecords).totalClasses = 2 ∧
    (getAttendanceBySubject 2 exAggRecords).totalSessions = 5 ∧
    (getAttendanceBySubject 2 exAggRecords).presentCount = 3 ∧
    (getAttendanceBySubject 2 exAggRecords).absentCount = 2 ∧
    (getAttendanceBySubject 2 exAggRecords).attendancePercentage = 60 := by
  have h := subject_aggregate_correct 2 exAggRecords (by decide)
  have hs : (getAttendanceBySubject 2 exAggRecords).totalSessions = 5 := by decide
  have hp : (getAttendanceBySubject 2 exAggRecords).presentCount = 3 := by decide
  have hpct := h.2.2.2.2.2.1 (by rw [hs]; omega)
  rw [hs, hp] at hpct
  refine ⟨by decide, hs, hp, by decide, ?_⟩
  rw [hpct]
  norm_num [roundTo2]

/-- C8, counterexample: the claim says a roster member whose status is
not active is rejected with NotInSection, but the section-membership
check of `markAttendance` (line 271) only tests
`sid.studentId === studentId` and never reads the roster status: with
student 2 enrolled and present in the roster only as withdrawn, the call
succeeds and creates an attendance entry for the withdrawn student. -/
theorem roster_status_not_checked_cex :
    (exSectionWithdrawn.students.all
      (fun m => m.rosterStatus == "withdrawn")) = true ∧
    ((markAttendance exDBWithdrawn 10 exMarkReq 100 200 7).1.toOption.map
      (fun r => r.attendance.map (fun a => a.studentId))) = some [2] ∧
    (markAttendance exDBWithdrawn 10 exMarkReq 100 200 7).1 ≠
      .error ApiError.notInSection := by
  exact ⟨by decide, by decide, by decide⟩

/-- C8, amended: a student absent from the class section roster is
rejected with NotInSection, and a student present in the roster with any
status (active, withdrawn or transferred) passes the section-membership
check, so the per-student validation never answers NotInSection for a
roster member. -/
theorem roster_membership_check (db : DB) (cs : ClassSection) (n sid : ℕ)
    (ss : List SessionEntry) (student : Student)
    (hstu : findFirst (fun s : Student => s.id = sid) db.students = some student)
    (henr : cs.subjectId ∈ student.enrolledSubjects) :
    ((¬ ∃ e ∈ cs.students, e.studentId = sid) →
      validateStudentEntry db cs n sid ss = .error .notInSection) ∧
    ((∃ e ∈ cs.students, e.studentId = sid) →
      validateStudentEntry db cs n sid ss ≠ .error .notInSection) := by
  constructor
  · intro hni
    rw [validateStudentEntry, hstu]
    simp only []
    rw [if_neg (not_not_intro henr), if_pos hni]
  · intro hin hcontra
    rw [validateStudentEntry, hstu] at hcontra
    simp only [] at hcontra
    rw [if_neg (not_not_intro henr), if_neg (not_not_intro hin)] at hcontra
    cases hv : validateStudentSessions n ss with
    | error e' =>
        rw [hv] at hcontra
        simp only [Except.error.injEq] at hcontra
        rcases validateStudentSessions_error_mem hv with h | h | h | h | h <;>
          rw [h] at hcontra <;> exact ApiError.noConfusion hcontra
    | ok pa =>
        rw [hv] at hcontra
        simp at hcontra

/-- Witness for C8 (amended): with student 2 enrolled and on the roster
of the withdrawn-only section, the per-student validation does not answer
NotInSection. -/
theorem roster_membership_check_witness :
    validateStudentEntry exDBWithdrawn exSectionWithdrawn 2 2
      [{ sessionNumber := 1, status := "present" },
       { sessionNumber := 2, status := "absent" }] ≠
      .error ApiError.notInSection := by
  exact (roster_membership_check exDBWithdrawn exSectionWithdrawn 2 2
    [{ sessionNumber := 1, status := "present" },
     { sessionNumber := 2, status := "absent" }]
    exStudent rfl (by decide)).2 (by decide)

/-- C9, counterexample: the claim says every accepted sub-change updates
both lastModifiedBy and lastModifiedAt, but a finalize-only edit by user
10 on a record whose lastModifiedBy is 99 succeeds (the finalize
sub-change is applied, lastModifiedAt becomes the call instant) while
lastModifiedBy remains 99: only the attendance-patch path runs
`updateWithAudit`, the controller itself only stamps `lastModifiedAt`
(line 749). -/
theorem audit_user_not_updated_cex :
    ((editAttendanceRecord exDBWithRecord 10 7 exFinalizeReq 777).1.toOption.map
      (fun r => (r.isFinalized, r.lastModifiedBy, r.lastModifiedAt))) =
      some (true, some 99, some 777) ∧
    exRecord.lastModifiedBy = some 99 ∧ exTeacher.userId = 10 := by
  exact ⟨by decide, by decide, by decide⟩

/-- C9, amended: every successful edit updates lastModifiedAt; an
attendance sub-change also updates lastModifiedBy to the calling user,
while a time-only or finalize-only edit (attendance field absent or
empty) leaves lastModifiedBy exactly as stored. -/
theorem audit_fields_on_edit {db : DB} {u rid now : ℕ} {req : EditRequest}
    {r' : AttendanceRecord}
    (h : (editAttendanceRecord db u rid req now).1 = .ok r') :
    r'.lastModifiedAt = some now ∧
    (∀ x l, req.attendance = some (x :: l) → r'.lastModifiedBy = some u) ∧
    (req.attendance = none ∨ req.attendance = some [] →
      ∃ rec, findFirst (fun r : AttendanceRecord => r.recordId = rid)
          db.records = some rec ∧
        r'.lastModifiedBy = rec.lastModifiedBy) := by
  cases hr : editAttendanceRecordResult db u rid req now with
  | error e =>
      rw [editAttendanceRecord, hr] at h
      simp at h
  | ok rec6 =>
      rw [editAttendanceRecord, hr] at h
      simp only [Except.ok.injEq] at h
      subst h
      obtain ⟨rec, hR, _, _, hat, hbyP, hbyA, _⟩ := editAttendanceRecordResult_ok hr
      exact ⟨hat, hbyA, fun hc => ⟨rec, hR, hbyP hc⟩⟩

/-- Witness for C9 (amended): the attendance-patch edit by user 10 at
instant 777 succeeds and stamps lastModifiedBy = 10 and
lastModifiedAt = 777. -/
theorem audit_fields_on_edit_witness :
    ((editAttendanceRecord exDBWithRecord 10 7 exEditReqAtt 777).1.toOption.map
      (fun r => (r.lastModifiedBy, r.lastModifiedAt))) =
      some (some 10, some 777) := by
  have hok : (editAttendanceRecord exDBWithRecord 10 7 exEditReqAtt 777).1.isOk
      = true := by decide
  cases hq : (editAttendanceRecord exDBWithRecord 10 7 exEditReqAtt 777).1 with
  | error e => rw [hq] at hok; exact Bool.noConfusion hok
  | ok r' =>
      have h2 := audit_fields_on_edit hq
      simp only [Except.toOption, Option.map]
      rw [h2.1, h2.2.1 (2, [{ sessionNumber := 1, status := "absent" }]) [] rfl]

/-- C10: an edit by the owning teacher of an unfinalized record that
patches startTime and endTime is accepted whenever both are
well-formatted HH:MM strings: no ordering or duration constraint of the
creation path is re-checked, and the session breakdown is regenerated as
numSessions consecutive SESSION_DURATION-minute slots starting at the new
stored startTime, with the stored endTime playing no role in the
breakdown. -/
theorem edit_time_validation_format_only (db : DB) (u rid now : ℕ)
    (t : Teacher) (rec : AttendanceRecord) (s e : String)
    (hT : findFirst (fun x : Teacher => x.userId = u) db.teachers = some t)
    (hR : findFirst (fun r : AttendanceRecord => r.recordId = rid) db.records =
      some rec)
    (hOwn : rec.teacherId = t.id) (hFin : rec.isFinalized = false)
    (hs : timeRegexOK s = true) (he : timeRegexOK e = true) :
    ∃ r', (editAttendanceRecord db u rid
        { attendance := none, startTime := some s, endTime := some e,
          isFinalized := none } now).1 = .ok r' ∧
      r'.startTime = s ∧ r'.endTime = e ∧
      r'.sessionBreakdown = genSessions (toMin s) 1 rec.numSessions ∧
      (∀ e2, generateSessionBreakdown s e2 rec.numSessions =
        r'.sessionBreakdown) ∧
      (∀ slot ∈ r'.sessionBreakdown,
        toMin slot.endTime = (toMin slot.startTime + SESSION_DURATION) % 1440) := by
  have hres : editAttendanceRecordResult db u rid
      { attendance := none, startTime := some s, endTime := some e,
        isFinalized := none } now =
      .ok (applyEditFields rec
        { attendance := none, startTime := some s, endTime := some e,
          isFinalized := none } now) := by
    rw [editAttendanceRecordResult, hT]
    simp only []
    rw [hR]
    simp only []
    rw [if_neg (not_not_intro hOwn), if_neg (by rw [hFin]; exact Bool.false_ne_true),
        if_neg (by simp [badTimeFormat, hs]), if_neg (by simp [badTimeFormat, he])]
  refine ⟨applyEditFields rec
      { attendance := none, startTime := some s, endTime := some e,
        isFinalized := none } now,
    by rw [editAttendanceRecord, hres], rfl, rfl, rfl, fun e2 => rfl, ?_⟩
  intro slot hslot
  exact genSessions_duration _ _ _ hslot

/-- Witness for C10: editing the stored 09:00-10:30 record to
startTime 23:00 and endTime 09:00 (an end before the start, with a span
far shorter than 2 sessions need) is accepted, and the breakdown is two
45-minute slots from 23:00 regardless of the 09:00 endTime. -/
theorem edit_time_validation_format_only_witness :
    ((editAttendanceRecord exDBWithRecord 10 7 exTimeReq 777).1.toOption.map
      (fun r => (r.startTime, r.endTime, r.sessionBreakdown))) =
      some ("23:00", "09:00",
        [{ sessionNumber := 1, startTime := "23:00", endTime := "23:45" },
         { sessionNumber := 2, startTime := "23:45", endTime := "00:30" }]) ∧
    toMin "09:00" < toMin "23:00" := by
  obtain ⟨r', hok, h1, h2, h3, _, _⟩ := edit_time_validation_format_only
    exDBWithRecord 10 7 777 exTeacher exRecord "23:00" "09:00"
    rfl rfl rfl rfl (by decide) (by decide)
  have hok' : (editAttendanceRecord exDBWithRecord 10 7 exTimeReq 777).1 =
      .ok r' := hok
  constructor
  · rw [hok']
    simp only [Except.toOption, Option.map]
    rw [h1, h2, h3]
    decide
  · decide

end MyAMS
